import Mathlib

/-!
# Verification of the 2D particle-constraint physics engine

Shallow embedding of the engine found under `src/physics/` (files `Vec2.py`,
`Particle.py`, `DistanceConstraint.py`, `PinConstraint.py`, `spring.py`,
`collision.py`, `world.py`, `solvers/rigidbody.py`, `solvers/cloth.py`,
`serialization.py`).  Python floats are modelled as real numbers; Python
object references to particles are modelled as indices into the world's
particle list (constraints never own particles, and every particle is owned
by exactly one world).  Statements about IEEE non-finite values are handled
by a second, NaN-propagating number model introduced further below.
-/

noncomputable section

/-- 2D vector (`Vec2` in `Vec2.py`): a pair of floats. -/
structure Vec2 where
  x : ℝ
  y : ℝ

instance : Inhabited Vec2 := ⟨⟨0, 0⟩⟩

/-- `Vec2.__add__`. -/
def Vec2.add (a b : Vec2) : Vec2 := ⟨a.x + b.x, a.y + b.y⟩

/-- `Vec2.__sub__`. -/
def Vec2.sub (a b : Vec2) : Vec2 := ⟨a.x - b.x, a.y - b.y⟩

/-- `Vec2.__mul__` / `__rmul__` (vector times scalar). -/
def Vec2.smul (a : Vec2) (s : ℝ) : Vec2 := ⟨a.x * s, a.y * s⟩

/-- `Vec2.__truediv__` (vector divided by scalar). -/
def Vec2.sdiv (a : Vec2) (s : ℝ) : Vec2 := ⟨a.x / s, a.y / s⟩

/-- `Vec2.__neg__`. -/
def Vec2.neg (a : Vec2) : Vec2 := ⟨-a.x, -a.y⟩

instance : Add Vec2 := ⟨Vec2.add⟩
instance : Sub Vec2 := ⟨Vec2.sub⟩
instance : Neg Vec2 := ⟨Vec2.neg⟩
instance : HMul Vec2 ℝ Vec2 := ⟨Vec2.smul⟩
instance : HDiv Vec2 ℝ Vec2 := ⟨Vec2.sdiv⟩

/-- `Vec2.length`: `math.hypot(x, y) = sqrt(x² + y²)`. -/
def Vec2.length (a : Vec2) : ℝ := Real.sqrt (a.x * a.x + a.y * a.y)

/-- `Vec2.length_sq`. -/
def Vec2.length_sq (a : Vec2) : ℝ := a.x * a.x + a.y * a.y

/-- `Vec2.normalize`. -/
def Vec2.normalize (a : Vec2) : Vec2 :=
  if a.length > 0 then ⟨a.x / a.length, a.y / a.length⟩ else ⟨0, 0⟩

/-- `Vec2.copy` — value semantics makes copying the identity. -/
def Vec2.copy (a : Vec2) : Vec2 := ⟨a.x, a.y⟩

theorem vec2_ext {a b : Vec2} (hx : a.x = b.x) (hy : a.y = b.y) : a = b := by
  cases a; cases b; simp_all

@[simp] theorem Vec2.add_def (a b : Vec2) : a + b = ⟨a.x + b.x, a.y + b.y⟩ := rfl
@[simp] theorem Vec2.sub_def (a b : Vec2) : a - b = ⟨a.x - b.x, a.y - b.y⟩ := rfl
@[simp] theorem Vec2.smul_def (a : Vec2) (s : ℝ) : a * s = ⟨a.x * s, a.y * s⟩ := rfl
@[simp] theorem Vec2.sdiv_def (a : Vec2) (s : ℝ) : a / s = ⟨a.x / s, a.y / s⟩ := rfl

/-- `Particle` (`Particle.py`): point mass with position, velocity, radius,
mass and a fixed flag.  The stored `inv_mass` is kept in sync with
`mass`/`fixed` by the property setters, so it is modelled as the derived
function `Particle.inv_mass` below. -/
structure Particle where
  pos : Vec2
  vel : Vec2
  radius : ℝ
  mass : ℝ
  fixed : Bool

/-- Default-constructed particle (`Particle.__init__` defaults:
`vel=Vec2(0,0)`, `radius=6`, `mass=1.0`, `fixed=False`). -/
instance : Inhabited Particle := ⟨⟨⟨0, 0⟩, ⟨0, 0⟩, 6, 1, false⟩⟩

/-- `Particle._update_inv_mass`: `0.0` when fixed or massless, else `1/mass`. -/
def Particle.inv_mass (p : Particle) : ℝ :=
  if p.fixed = true ∨ p.mass = 0 then 0 else 1 / p.mass

theorem particle_ext {a b : Particle} (h1 : a.pos = b.pos) (h2 : a.vel = b.vel)
    (h3 : a.radius = b.radius) (h4 : a.mass = b.mass) (h5 : a.fixed = b.fixed) :
    a = b := by
  cases a; cases b; simp_all

/-- Read particle `i` of the world's particle list (Python object-reference
dereference; references held by constraints always resolve). -/
def getP (ps : List Particle) (i : ℕ) : Particle := ps.getD i default

/-- In-place mutation of `particles[i].pos` (`p.pos = ...` through a shared
reference). -/
def modPos (ps : List Particle) (i : ℕ) (f : Vec2 → Vec2) : List Particle :=
  ps.set i { getP ps i with pos := f (getP ps i).pos }

/-- In-place mutation of `particles[i].vel`. -/
def modVel (ps : List Particle) (i : ℕ) (f : Vec2 → Vec2) : List Particle :=
  ps.set i { getP ps i with vel := f (getP ps i).vel }

/-- `DistanceConstraint` (`DistanceConstraint.py`): two particle references,
rest distance, stiffness, and the XPBD fields `compliance`/`lagrange`. -/
structure DistanceConstraint where
  p1 : ℕ
  p2 : ℕ
  distance : ℝ
  stiffness : ℝ
  compliance : ℝ
  lagrange : ℝ

/-- `DistanceConstraint.__init__` (default `stiffness=1.0` at call sites that
omit it): `compliance = 0.0` (classic PBD), `lagrange = 0.0`. -/
def DistanceConstraint.make (p1 p2 : ℕ) (distance stiffness : ℝ) :
    DistanceConstraint :=
  ⟨p1, p2, distance, stiffness, 0, 0⟩

/-- `DistanceConstraint.update(self, dt, eps=1e-9)`: positional correction.
If either reference failed to resolve an exception would be caught by the
caller's `try/except` in `World.update`, leaving the state unchanged, which
the out-of-range guard models. -/
def DistanceConstraint.update (c : DistanceConstraint) (ps : List Particle)
    (dt : ℝ) (eps : ℝ) : DistanceConstraint × List Particle :=
  if c.p1 < ps.length ∧ c.p2 < ps.length then
    let pi := (getP ps c.p1).pos
    let pj := (getP ps c.p2).pos
    let wi := (getP ps c.p1).inv_mass
    let wj := (getP ps c.p2).inv_mass
    let d := pj - pi
    let len_d := d.length
    if len_d < eps ∨ wi + wj = 0 then (c, ps)
    else
      let n := d / len_d
      let C := len_d - c.distance
      let wsum := wi + wj
      if c.compliance > 0 then
        let gamma := c.compliance / (dt * dt)
        let d_lambda := -(C + gamma * c.lagrange) / (wsum + gamma)
        let ps1 := modPos ps c.p1 (fun pos => pos + n * (-wi * d_lambda))
        let ps2 := modPos ps1 c.p2 (fun pos => pos + n * (wj * d_lambda))
        ({ c with lagrange := c.lagrange + d_lambda }, ps2)
      else
        let s := c.stiffness * C / wsum
        let ps1 := modPos ps c.p1 (fun pos => pos + n * (wi * s))
        let ps2 := modPos ps1 c.p2 (fun pos => pos - n * (wj * s))
        (c, ps2)
  else (c, ps)

/-- `Spring` (`spring.py`): two particle references, rest length, stiffness
and damping (always a float after `__init__`). -/
structure Spring where
  p1 : ℕ
  p2 : ℕ
  length : ℝ
  stiffness : ℝ
  damping : ℝ

/-- `Spring.__init__(p1, p2, length, stiffness, damping=None)`: when no
damping is supplied the constructor stores `2.0 * math.sqrt(stiffness)`. -/
def Spring.make (p1 p2 : ℕ) (length stiffness : ℝ) (damping : Option ℝ) :
    Spring :=
  { p1 := p1, p2 := p2, length := length, stiffness := stiffness,
    damping := match damping with
      | some d => d
      | none => 2 * Real.sqrt stiffness }

/-- `Spring.compute_force`: force on `p2` as a pure function of the supplied
positions/velocities; reads the endpoint masses through the stored
references.  The `math.isfinite` guards are vacuous over ℝ; the
zero-distance guard and the force clamp are kept. -/
def Spring.computeForce (s : Spring) (ps : List Particle)
    (p1pos p2pos p1vel p2vel : Vec2) : Vec2 :=
  let direction : Vec2 := ⟨p2pos.x - p1pos.x, p2pos.y - p1pos.y⟩
  let distance := direction.length
  if distance = 0 then ⟨0, 0⟩
  else
    let n : Vec2 := ⟨direction.x / distance, direction.y / distance⟩
    let x := distance - s.length
    let v_rel := (p2vel.x - p1vel.x) * n.x + (p2vel.y - p1vel.y) * n.y
    let m := ((getP ps s.p1).mass + (getP ps s.p2).mass) * 0.5
    let critical_c := 2 * Real.sqrt (max (s.stiffness * max m 1e-9) 0)
    let c := s.damping
    let force_scalar := -(s.stiffness * x + c * v_rel)
    let max_force := max 1e4 (|s.stiffness| * 1e3)
    let force_scalar :=
      if |force_scalar| > max_force then
        (if force_scalar < 0 then -max_force else max_force)
      else force_scalar
    let _ := critical_c
    ⟨n.x * force_scalar, n.y * force_scalar⟩

/-- `PinConstraint` (`PinConstraint.py`): a particle reference and the pinned
world position. -/
structure PinConstraint where
  p : ℕ
  pos : Vec2

/-- `PinConstraint.__init__(p, pos)`: stores a copy of the anchor and sets
`p.fixed = True` on the referenced particle. -/
def PinConstraint.make (ps : List Particle) (i : ℕ) (anchor : Vec2) :
    PinConstraint × List Particle :=
  (⟨i, anchor.copy⟩, ps.set i { getP ps i with fixed := true })

/-- `detect_particle_collision` (`collision.py`). -/
def detect_particle_collision (p1 p2 : Particle) : Prop :=
  let dx := p1.pos.x - p2.pos.x
  let dy := p1.pos.y - p2.pos.y
  let rsum := p1.radius + p2.radius
  dx * dx + dy * dy < rsum * rsum

instance (p1 p2 : Particle) : Decidable (detect_particle_collision p1 p2) := by
  unfold detect_particle_collision; infer_instance

/-- `resolve_particle_collision` (`collision.py`): pure positional
correction distributed by inverse mass; the impulse branch of the source is
`pass`, so velocities are never modified.  Defaults at the definition site
are `restitution=0.3, percent=1, slop=0.001, max_correction=0.9`;
`World._handle_collisions` calls it with
`restitution=self.restitution, percent=0.2, slop=0.01, max_correction=0.5`. -/
def resolve_particle_collision (p1 p2 : Particle)
    (restitution percent slop max_correction : ℝ) : Particle × Particle :=
  if p1.fixed = true ∧ p2.fixed = true then (p1, p2)
  else
    let delta := p2.pos - p1.pos
    let dist0 := delta.length
    let normal : Vec2 :=
      if dist0 ≤ 1e-9 then ⟨1, 0⟩ else ⟨delta.x / dist0, delta.y / dist0⟩
    let dist := if dist0 ≤ 1e-9 then 1e-9 else dist0
    let rv : Vec2 := ⟨p2.vel.x - p1.vel.x, p2.vel.y - p1.vel.y⟩
    let vel_along_normal := rv.x * normal.x + rv.y * normal.y
    let inv_mass1 : ℝ :=
      if p1.fixed = true then 0 else if p1.mass ≠ 0 then 1 / p1.mass else 0
    let inv_mass2 : ℝ :=
      if p2.fixed = true then 0 else if p2.mass ≠ 0 then 1 / p2.mass else 0
    let inv_mass_sum := inv_mass1 + inv_mass2
    if inv_mass_sum = 0 then (p1, p2)
    else
      let penetration := (p1.radius + p2.radius) - dist
      let _ := restitution
      let _ := vel_along_normal
      if penetration > slop then
        let correction_mag := min ((penetration - slop) * percent) max_correction
        let q1 :=
          if ¬ p1.fixed = true then
            { p1 with pos := ⟨p1.pos.x - normal.x * correction_mag * (inv_mass1 / inv_mass_sum),
                              p1.pos.y - normal.y * correction_mag * (inv_mass1 / inv_mass_sum)⟩ }
          else p1
        let q2 :=
          if ¬ p2.fixed = true then
            { p2 with pos := ⟨p2.pos.x + normal.x * correction_mag * (inv_mass2 / inv_mass_sum),
                              p2.pos.y + normal.y * correction_mag * (inv_mass2 / inv_mass_sum)⟩ }
          else p2
        (q1, q2)
      else (p1, p2)

end

noncomputable section

/-- `math.atan2(y, x)`. -/
def atan2 (y x : ℝ) : ℝ :=
  if 0 < x then Real.arctan (y / x)
  else if x < 0 then
    (if 0 ≤ y then Real.arctan (y / x) + Real.pi
     else Real.arctan (y / x) - Real.pi)
  else (if 0 < y then Real.pi / 2 else if y < 0 then -Real.pi / 2 else 0)

/-- Index-aware map (models `for i, p in enumerate(...)` loops that assign
back to `particles[i]`). -/
def idxMapAux {α : Type} (f : ℕ → α → α) : ℕ → List α → List α
  | _, [] => []
  | i, a :: rest => f i a :: idxMapAux f (i + 1) rest

/-- Index-aware map starting at index 0. -/
def idxMap {α : Type} (f : ℕ → α → α) (l : List α) : List α := idxMapAux f 0 l

/-- `RigidBody` (`solvers/rigidbody.py` on top of `solvers/solver.py`):
particle indices, rest-frame offsets, stiffness, fixed flag and the
`rest_com` scratch field. -/
structure RigidBody where
  indices : List ℕ
  rest_rel : List Vec2
  stiffness : ℝ
  fixed : Bool
  rest_com : Vec2

/-- `RigidBody.solve(world, dt)`: shape matching.  An unresolvable particle
index would raise `IndexError` in the initial list comprehension, caught by
`World.update`'s `try/except`, leaving the state unchanged (the `all`
guard). -/
def RigidBody.solve (rb : RigidBody) (ps : List Particle) :
    RigidBody × List Particle :=
  if rb.indices.length = 0 ∨ rb.fixed = true then (rb, ps)
  else if ¬ rb.indices.all (· < ps.length) then (rb, ps)
  else if rb.indices.length = 1 then (rb, ps)
  else
    let objs := rb.indices.map (getP ps)
    let count := objs.length
    let com_x := (objs.map (fun p => p.pos.x)).sum / count
    let com_y := (objs.map (fun p => p.pos.y)).sum / count
    let com : Vec2 := ⟨com_x, com_y⟩
    let zipped := objs.zip rb.rest_rel
    let a := (zipped.map (fun pr =>
      (pr.1.pos.x - com.x) * pr.2.x + (pr.1.pos.y - com.y) * pr.2.y)).sum
    let b := (zipped.map (fun pr =>
      (pr.1.pos.x - com.x) * pr.2.y - (pr.1.pos.y - com.y) * pr.2.x)).sum
    let cos_t := if a = 0 ∧ b = 0 then 1 else Real.cos (atan2 b a)
    let sin_t := if a = 0 ∧ b = 0 then 0 else Real.sin (atan2 b a)
    let alpha := max 0 (min 1 rb.stiffness)
    let ps' := (rb.indices.zip rb.rest_rel).foldl (fun cur pr =>
      let i := pr.1
      let r := pr.2
      if (getP cur i).fixed = true then cur
      else
        let tx := com.x + (cos_t * r.x - sin_t * r.y)
        let ty := com.y + (sin_t * r.x + cos_t * r.y)
        modPos cur i (fun pos => ⟨pos.x + alpha * (tx - pos.x),
                                  pos.y + alpha * (ty - pos.y)⟩)) ps
    ({ rb with rest_com := com }, ps')

/-- `Cloth` (`solvers/cloth.py`): grid of particle indices plus a private
list of distance constraints (built by `build_constraints`). -/
structure Cloth where
  indices : List ℕ
  width : ℕ
  height : ℕ
  stiffness : ℝ
  tear_distance_factor : ℝ
  fixed : Bool
  constraints : List DistanceConstraint

/-- `Cloth.solve(world, dt)`: run every internal distance constraint, then
tear the ones whose current length reaches
`restDistance * tear_distance_factor`. -/
def Cloth.solve (cl : Cloth) (ps : List Particle) (dt : ℝ) :
    Cloth × List Particle :=
  if cl.fixed = true then (cl, ps)
  else
    let step := cl.constraints.foldl
      (fun (acc : List DistanceConstraint × List Particle) c =>
        let r := c.update acc.2 dt 1e-9
        (acc.1 ++ [r.1], r.2)) ([], ps)
    let cs := step.1
    let ps1 := step.2
    let cs2 :=
      if cl.tear_distance_factor > 0 then
        cs.filter (fun c =>
          ¬ ((getP ps1 c.p1).pos - (getP ps1 c.p2).pos).length ≥
              c.distance * cl.tear_distance_factor)
      else cs
    ({ cl with constraints := cs2 }, ps1)

/-- Tagged union over the runtime constraint kinds `World.update` inspects
with `isinstance`. -/
inductive Constraint
  | dist : DistanceConstraint → Constraint
  | spring : Spring → Constraint
  | pin : PinConstraint → Constraint

/-- Tagged union over the group solvers. -/
inductive WGroup
  | rigid : RigidBody → WGroup
  | cloth : Cloth → WGroup

/-- `g.solve(self, dt)` dispatch inside `World.update` (wrapped in
`try/except`). -/
def WGroup.solve (g : WGroup) (ps : List Particle) (dt : ℝ) :
    WGroup × List Particle :=
  match g with
  | .rigid rb => let r := rb.solve ps; (.rigid r.1, r.2)
  | .cloth cl => let r := cl.solve ps dt; (.cloth r.1, r.2)

/-- One `c.update(dt)` dispatch of the relaxation loop in `World.update`:
springs are skipped by the `isinstance` test; `PinConstraint.update` is
declared as `update(self)` with no `dt` parameter, so `c.update(dt)` raises
`TypeError`, which the surrounding `try/except` swallows — a pin therefore
has no effect during the pass. -/
def Constraint.applyPositional (c : Constraint) (ps : List Particle)
    (dt : ℝ) : Constraint × List Particle :=
  match c with
  | .spring _ => (c, ps)
  | .dist d => let r := d.update ps dt 1e-9; (.dist r.1, r.2)
  | .pin _ => (c, ps)

/-- `World` (`world.py`): all simulation state.  The scratch spatial-hash
dictionary is rebuilt from scratch on every use, so it is modelled locally
rather than as a field. -/
structure World where
  width : ℝ
  height : ℝ
  gravity : Vec2
  friction : ℝ
  restitution : ℝ
  particles : List Particle
  constraints : List Constraint
  groups : List WGroup
  collision_iterations : ℕ
  constraint_iterations : ℕ
  bounce : ℝ
  cell_size : ℝ
  verlet_rebuild_freq : ℕ
  verlet_skin : ℝ
  verlet_list : Option (List (List ℕ))
  verlet_frame_counter : ℕ
  verlet_last_n : ℕ

/-- `World.__init__` (defaults: `gravity=Vec2(0,981)`, `friction=0.1`,
`restitution=0.5`, `cell_size=None`, `constraint_iterations=2`). -/
def World.make (width height : ℝ) (gravity : Vec2) (friction restitution : ℝ)
    (cell_size : Option ℝ) (constraint_iterations : ℕ) : World :=
  let cs := match cell_size with
    | none => max 8 (min width height / 10)
    | some c => c
  { width := width, height := height, gravity := gravity,
    friction := friction, restitution := restitution,
    particles := [], constraints := [], groups := [],
    collision_iterations := 4,
    constraint_iterations := constraint_iterations,
    bounce := restitution,
    cell_size := cs,
    verlet_rebuild_freq := 5,
    verlet_skin := max 0.5 (cs * 0.4),
    verlet_list := none,
    verlet_frame_counter := 0,
    verlet_last_n := 0 }

end

noncomputable section

/-- Force accumulation in `World.update` step 1: gravity and viscous drag
for every non-fixed particle, then spring forces added to both endpoint
accumulators (a spring whose endpoint reference is not a world particle is
skipped by the `index_map` lookup). -/
def computeForces (w : World) : List Vec2 :=
  let base := w.particles.map (fun p =>
    if p.fixed = true then (⟨0, 0⟩ : Vec2)
    else w.gravity * p.mass - p.vel * w.friction)
  w.constraints.foldl (fun forces c =>
    match c with
    | .spring s =>
        if s.p1 < w.particles.length ∧ s.p2 < w.particles.length then
          let f_on_j := s.computeForce w.particles
            (getP w.particles s.p1).pos (getP w.particles s.p2).pos
            (getP w.particles s.p1).vel (getP w.particles s.p2).vel
          let forces1 := forces.set s.p2 (forces.getD s.p2 default + f_on_j)
          forces1.set s.p1 (forces1.getD s.p1 default - f_on_j)
        else forces
    | _ => forces) base

/-- `World.update` step 2: `vel += (forces[i] / mass) * dt` for non-fixed,
non-massless particles. -/
def integrateVel (ps : List Particle) (forces : List Vec2) (dt : ℝ) :
    List Particle :=
  idxMap (fun i p =>
    if p.fixed = false ∧ p.mass ≠ 0 then
      { p with vel := p.vel + forces.getD i default / p.mass * dt }
    else p) ps

/-- `World.update` step 3: `pos += vel * dt` for non-fixed particles. -/
def integratePos (ps : List Particle) (dt : ℝ) : List Particle :=
  ps.map (fun p =>
    if p.fixed = false then { p with pos := p.pos + p.vel * dt } else p)

/-- One pass over `self.constraints` calling `c.update(dt)` on non-Spring
constraints (each call wrapped in `try/except`). -/
def constraintPass (cs : List Constraint) (ps : List Particle) (dt : ℝ) :
    List Constraint × List Particle :=
  cs.foldl (fun (acc : List Constraint × List Particle) c =>
    let r := c.applyPositional acc.2 dt
    (acc.1 ++ [r.1], r.2)) ([], ps)

/-- One pass over `self.groups` calling `g.solve(self, dt)` (wrapped in
`try/except`). -/
def groupPass (gs : List WGroup) (ps : List Particle) (dt : ℝ) :
    List WGroup × List Particle :=
  gs.foldl (fun (acc : List WGroup × List Particle) g =>
    let r := g.solve acc.2 dt
    (acc.1 ++ [r.1], r.2)) ([], ps)

/-- One iteration of the relaxation loop: constraints pass, then groups. -/
def relaxStep (dt : ℝ) (st : List Constraint × List WGroup × List Particle) :
    List Constraint × List WGroup × List Particle :=
  let a := constraintPass st.1 st.2.2 dt
  let b := groupPass st.2.1 a.2 dt
  (a.1, b.1, b.2)

/-- `World._apply_boundary_constraints`: clamp a non-fixed particle's
position to `[radius, dimension - radius]` on each axis. -/
def applyBoundaryConstraints (w : World) (p : Particle) : Particle :=
  if p.fixed = true then p
  else
    let px := if p.pos.x < p.radius then p.radius
      else if p.pos.x > w.width - p.radius then w.width - p.radius
      else p.pos.x
    let py := if p.pos.y < p.radius then p.radius
      else if p.pos.y > w.height - p.radius then w.height - p.radius
      else p.pos.y
    { p with pos := ⟨px, py⟩ }

/-- `World._apply_boundary_restitution`: flip-and-scale a velocity component
that still points outward at a boundary. -/
def applyBoundaryRestitution (w : World) (p : Particle) : Particle :=
  if p.fixed = true then p
  else
    let vx := if (p.pos.x ≤ p.radius ∧ p.vel.x < 0) ∨
                 (p.pos.x ≥ w.width - p.radius ∧ p.vel.x > 0)
      then p.vel.x * (-w.bounce) else p.vel.x
    let vy := if (p.pos.y ≤ p.radius ∧ p.vel.y < 0) ∨
                 (p.pos.y ≥ w.height - p.radius ∧ p.vel.y > 0)
      then p.vel.y * (-w.bounce) else p.vel.y
    { p with vel := ⟨vx, vy⟩ }

/-- Largest particle radius (`max(..., default=0.0)`). -/
def maxRadius : List Particle → ℝ
  | [] => 0
  | p :: rest => rest.foldl (fun m q => max m q.radius) p.radius

/-- Insert a particle index into the spatial-hash cell `k`, preserving the
dict's insertion order (Python dicts iterate in insertion order). -/
def addToCell : List ((ℤ × ℤ) × List ℕ) → (ℤ × ℤ) → ℕ →
    List ((ℤ × ℤ) × List ℕ)
  | [], k, i => [(k, [i])]
  | (k', l) :: rest, k, i =>
      if k' = k then (k', l ++ [i]) :: rest else (k', l) :: addToCell rest k i

/-- Spatial-hash cell lookup. -/
def cellGet (spatial : List ((ℤ × ℤ) × List ℕ)) (k : ℤ × ℤ) :
    Option (List ℕ) :=
  match spatial.find? (fun e => e.1 = k) with
  | some e => some e.2
  | none => none

/-- The `(dx, dy)` offsets of the 3×3 neighbourhood, in the source's loop
order. -/
def cellOffsets : List (ℤ × ℤ) :=
  [(-1, -1), (-1, 0), (-1, 1), (0, -1), (0, 0), (0, 1), (1, -1), (1, 0), (1, 1)]

/-- Append `j` to `neigh[i]`. -/
def appendNeighbor (neigh : List (List ℕ)) (i j : ℕ) : List (List ℕ) :=
  neigh.set i (neigh.getD i [] ++ [j])

/-- `World._rebuild_verlet_list` (with `cutoff=None`): spatial hash with
cell size `max(1e-6, cell_size)`, key `int(pos // cs) = ⌊pos / cs⌋`, then
symmetric neighbour lists for pairs within `2*max_radius + skin`. -/
def rebuildVerlet (w : World) : World :=
  let n := w.particles.length
  if n = 0 then { w with verlet_list := some [], verlet_last_n := 0 }
  else
    let cutoff := 2 * maxRadius w.particles + w.verlet_skin
    let cutoff_sq := cutoff * cutoff
    let cs := max 1e-6 w.cell_size
    let keyFor : Particle → ℤ × ℤ := fun p => (⌊p.pos.x / cs⌋, ⌊p.pos.y / cs⌋)
    let spatial := w.particles.enum.foldl
      (fun sp e => addToCell sp (keyFor e.2) e.1) []
    let neigh0 : List (List ℕ) := w.particles.map (fun _ => [])
    let neigh := spatial.foldl (fun nb cell =>
      cellOffsets.foldl (fun nb off =>
        match cellGet spatial (cell.1.1 + off.1, cell.1.2 + off.2) with
        | none => nb
        | some other =>
            cell.2.foldl (fun nb i =>
              other.foldl (fun nb j =>
                if i ≥ j then nb
                else
                  let p1 := getP w.particles i
                  let p2 := getP w.particles j
                  let dxp := p2.pos.x - p1.pos.x
                  let dyp := p2.pos.y - p1.pos.y
                  if dxp * dxp + dyp * dyp ≤ cutoff_sq then
                    appendNeighbor (appendNeighbor nb i j) j i
                  else nb) nb) nb) nb) neigh0
    { w with verlet_list := some neigh, verlet_last_n := n,
             verlet_frame_counter := 0 }

/-- Unique unordered pairs `(i, j)` with `i < j` drawn from the Verlet
neighbour lists, in enumeration order. -/
def verletPairs (vl : List (List ℕ)) : List (ℕ × ℕ) :=
  (vl.enum.map (fun e => (e.2.filter (fun j => e.1 < j)).map
    (fun j => (e.1, j)))).flatten

/-- Per-pair body of the Verlet (and hash-fallback) collision loop:
radius-based prefilter, narrow phase, then
`resolve_particle_collision(..., restitution, percent=0.2, slop=0.01,
max_correction=0.5)` writing both particles back. -/
def resolvePairStep (restitution : ℝ) (ps : List Particle) (pr : ℕ × ℕ) :
    List Particle :=
  let p1 := getP ps pr.1
  let p2 := getP ps pr.2
  let dxp := p2.pos.x - p1.pos.x
  let dyp := p2.pos.y - p1.pos.y
  let rsum := p1.radius + p2.radius
  if dxp * dxp + dyp * dyp > rsum * rsum then ps
  else if detect_particle_collision p1 p2 then
    let r := resolve_particle_collision p1 p2 restitution 0.2 0.01 0.5
    (ps.set pr.1 r.1).set pr.2 r.2
  else ps

/-- Fold `resolvePairStep` over a pair list (the source mutates particles in
place while iterating). -/
def resolvePairs (restitution : ℝ) (ps : List Particle)
    (pairs : List (ℕ × ℕ)) : List Particle :=
  pairs.foldl (resolvePairStep restitution) ps

/-- Per-pair body of the brute-force (`cell_size <= 0`) fallback: narrow
phase only, no prefilter. -/
def bruteStep (restitution : ℝ) (ps : List Particle) (pr : ℕ × ℕ) :
    List Particle :=
  let p1 := getP ps pr.1
  let p2 := getP ps pr.2
  if detect_particle_collision p1 p2 then
    let r := resolve_particle_collision p1 p2 restitution 0.2 0.01 0.5
    (ps.set pr.1 r.1).set pr.2 r.2
  else ps

/-- All pairs `(i, j)`, `i < j`, in the double-loop order of the brute-force
fallback. -/
def allPairs (n : ℕ) : List (ℕ × ℕ) :=
  ((List.range n).map (fun i =>
    ((List.range n).filter (fun j => i < j)).map (fun j => (i, j)))).flatten

/-- Pair enumeration of the spatial-hash fallback: hash cells in insertion
order, 3×3 neighbourhood, `i < j`, deduplicated through the `checked`
set. -/
def fallbackPairs (ps : List Particle) (cs : ℝ) : List (ℕ × ℕ) :=
  let keyFor : Particle → ℤ × ℤ := fun p => (⌊p.pos.x / cs⌋, ⌊p.pos.y / cs⌋)
  let spatial := ps.enum.foldl (fun sp e => addToCell sp (keyFor e.2) e.1) []
  let step := spatial.foldl (fun (acc : List (ℕ × ℕ)) cell =>
    cellOffsets.foldl (fun acc off =>
      match cellGet spatial (cell.1.1 + off.1, cell.1.2 + off.2) with
      | none => acc
      | some other =>
          cell.2.foldl (fun acc i =>
            other.foldl (fun acc j =>
              if i ≥ j then acc
              else if (min i j, max i j) ∈ acc then acc
              else acc ++ [(i, j)]) acc) acc) acc) []
  step

/-- The spatial-hash / brute-force fallback body of one collision iteration
(runs when the Verlet list is unavailable); it does not touch the frame
counter. -/
def collisionFallback (w : World) : World :=
  let cs := w.cell_size
  if cs ≤ 0 then
    let ps' := (allPairs w.particles.length).foldl (bruteStep w.restitution)
      w.particles
    { w with particles := ps' }
  else
    let ps' := resolvePairs w.restitution w.particles
      (fallbackPairs w.particles cs)
    { w with particles := ps' }

/-- Pair-resolution part of one `World._handle_collisions` iteration (after
the rebuild decision): use the Verlet neighbour list when it is present and
sized for the current particle count, else fall back to the spatial hash. -/
def collisionResolveBody (n : ℕ) (w1 : World) : World :=
  match w1.verlet_list with
  | some vl =>
      if vl.length = n then
        let pairs := verletPairs vl
        if pairs = [] then
          { w1 with verlet_frame_counter := w1.verlet_frame_counter + 1 }
        else
          { w1 with
              particles := resolvePairs w1.restitution w1.particles pairs,
              verlet_frame_counter := w1.verlet_frame_counter + 1 }
      else collisionFallback w1
  | none => collisionFallback w1

/-- One iteration of `World._handle_collisions`: decide whether to rebuild
the Verlet list, then resolve candidate pairs.  The no-rebuild branch
increments the frame counter once when chosen and the Verlet branch
increments it again when it completes. -/
def collisionIteration (w : World) : World :=
  let n := w.particles.length
  let rebuild := w.verlet_list = none ∨ w.verlet_last_n ≠ n ∨
    w.verlet_frame_counter % max 1 w.verlet_rebuild_freq = 0
  let w1 := if rebuild then rebuildVerlet w
    else { w with verlet_frame_counter := w.verlet_frame_counter + 1 }
  collisionResolveBody n w1

/-- `World._handle_collisions`: `max(1, collision_iterations)` iterations. -/
def handleCollisions (w : World) : World :=
  (fun v => collisionIteration v)^[max 1 w.collision_iterations] w

/-- The pipeline of `World.update` up to (and including) the boundary clamp
that follows collision resolution: integration, relaxation passes, clamp,
collisions, clamp. -/
def World.preRecon (w : World) (dt : ℝ) : World :=
  let forces := computeForces w
  let ps1 := integrateVel w.particles forces dt
  let ps2 := integratePos ps1 dt
  let st := (relaxStep dt)^[max 1 w.constraint_iterations]
    (w.constraints, w.groups, ps2)
  let w3 := { w with particles := st.2.2.map (applyBoundaryConstraints w),
                     constraints := st.1, groups := st.2.1 }
  let w4 := handleCollisions w3
  { w4 with particles := w4.particles.map (applyBoundaryConstraints w4) }

/-- The PBD velocity update of `World.update`: for every non-fixed particle,
when `dt > 1e-9`, replace the velocity with
`(pos - pos_before_integration) / dt`. -/
def velocityUpdate (w : World) (pos_before : List Vec2) (dt : ℝ) : World :=
  { w with particles := idxMap (fun i p =>
      if p.fixed = false ∧ dt > 1e-9 then
        { p with vel := (p.pos - pos_before.getD i default) / dt }
      else p) w.particles }

/-- The final boundary-restitution pass of `World.update`. -/
def restitutionPass (w : World) : World :=
  { w with particles := w.particles.map (applyBoundaryRestitution w) }

/-- `World.update(dt)`: early-out on an empty world, record pre-integration
positions, then run the staged pipeline. -/
def World.update (w : World) (dt : ℝ) : World :=
  if w.particles.length = 0 then w
  else
    let pos_before := w.particles.map (fun p => p.pos.copy)
    restitutionPass (velocityUpdate (w.preRecon dt) pos_before dt)

end

section PreservationMachinery

theorem getD_set_eq {α : Type} (d : α) :
    ∀ (l : List α) (i k : ℕ) (a : α),
      (l.set i a).getD k d = if i = k ∧ i < l.length then a else l.getD k d := by
  intro l
  induction l with
  | nil => intro i k a; simp
  | cons b rest ih =>
    intro i k a
    cases i with
    | zero =>
      cases k with
      | zero => simp
      | succ k => simp
    | succ i =>
      cases k with
      | zero => simp
      | succ k =>
        simp only [List.set_cons_succ, List.getD_cons_succ, List.length_cons]
        rw [ih i k a]
        congr 1
        simp [Nat.succ_lt_succ_iff]

theorem getP_set (ps : List Particle) (i k : ℕ) (a : Particle) :
    getP (ps.set i a) k = if i = k ∧ i < ps.length then a else getP ps k :=
  getD_set_eq default ps i k a

theorem getP_default_of_le : ∀ (ps : List Particle) (i : ℕ),
    ps.length ≤ i → getP ps i = default := by
  intro ps
  induction ps with
  | nil => intro i _; simp [getP]
  | cons p rest ih =>
    intro i hi
    cases i with
    | zero => simp at hi
    | succ i =>
      simp only [getP, List.getD_cons_succ]
      exact ih i (by simpa using hi)

theorem getP_map (f : Particle → Particle) :
    ∀ (ps : List Particle) (i : ℕ),
      getP (ps.map f) i = if i < ps.length then f (getP ps i) else default := by
  intro ps
  induction ps with
  | nil => intro i; simp [getP]
  | cons p rest ih =>
    intro i
    cases i with
    | zero => simp [getP]
    | succ i =>
      simp only [List.map_cons, getP, List.getD_cons_succ, List.length_cons]
      rw [show (rest.map f).getD i default = getP (rest.map f) i from rfl,
        ih i]
      congr 1
      simp [Nat.succ_lt_succ_iff]

theorem length_idxMapAux {α : Type} (f : ℕ → α → α) :
    ∀ (k : ℕ) (l : List α), (idxMapAux f k l).length = l.length := by
  intro k l
  induction l generalizing k with
  | nil => simp [idxMapAux]
  | cons a rest ih => simp [idxMapAux, ih]

theorem length_idxMap {α : Type} (f : ℕ → α → α) (l : List α) :
    (idxMap f l).length = l.length := length_idxMapAux f 0 l

theorem getD_idxMapAux {α : Type} [Inhabited α] (f : ℕ → α → α) :
    ∀ (l : List α) (k i : ℕ),
      (idxMapAux f k l).getD i default =
        if i < l.length then f (k + i) (l.getD i default) else default := by
  intro l
  induction l with
  | nil => intro k i; simp [idxMapAux]
  | cons a rest ih =>
    intro k i
    cases i with
    | zero => simp [idxMapAux]
    | succ i =>
      simp only [idxMapAux, List.getD_cons_succ, List.length_cons]
      rw [ih (k + 1) i]
      have : k + 1 + i = k + (i + 1) := by omega
      rw [this]
      congr 1
      simp [Nat.succ_lt_succ_iff]

theorem getP_idxMap (f : ℕ → Particle → Particle) (ps : List Particle)
    (i : ℕ) :
    getP (idxMap f ps) i =
      if i < ps.length then f i (getP ps i) else default := by
  have := getD_idxMapAux f ps 0 i
  simpa [idxMap, getP] using this

/-- Relation between a particle before and after a pipeline stage: radius,
mass and fixed flag are untouched, and a fixed particle is untouched
entirely. -/
def Keeps (old new : Particle) : Prop :=
  new.radius = old.radius ∧ new.mass = old.mass ∧ new.fixed = old.fixed ∧
    (old.fixed = true → new = old)

theorem keeps_rfl (p : Particle) : Keeps p p := ⟨rfl, rfl, rfl, fun _ => rfl⟩

theorem keeps_trans {a b c : Particle} (h1 : Keeps a b) (h2 : Keeps b c) :
    Keeps a c := by
  obtain ⟨r1, m1, f1, i1⟩ := h1
  obtain ⟨r2, m2, f2, i2⟩ := h2
  refine ⟨r2.trans r1, m2.trans m1, f2.trans f1, fun hf => ?_⟩
  have hb := i1 hf
  have : b.fixed = true := f1.trans hf
  exact (i2 this).trans hb

theorem keeps_compat {o a b : Particle} (ha : Keeps o a) (hb : Keeps o b) :
    Keeps a b := by
  obtain ⟨r1, m1, f1, i1⟩ := ha
  obtain ⟨r2, m2, f2, i2⟩ := hb
  refine ⟨r2.trans r1.symm, m2.trans m1.symm, f2.trans f1.symm, fun hf => ?_⟩
  have ho : o.fixed = true := f1 ▸ hf
  exact (i2 ho).trans (i1 ho).symm

/-- Stage-level preservation: same particle count, and every particle keeps
its radius, mass and fixed flag, fixed particles being untouched. -/
def Pres (ps ps' : List Particle) : Prop :=
  ps'.length = ps.length ∧ ∀ i, Keeps (getP ps i) (getP ps' i)

theorem pres_rfl (ps : List Particle) : Pres ps ps :=
  ⟨rfl, fun i => keeps_rfl _⟩

theorem pres_trans {a b c : List Particle} (h1 : Pres a b) (h2 : Pres b c) :
    Pres a c :=
  ⟨h2.1.trans h1.1, fun i => keeps_trans (h1.2 i) (h2.2 i)⟩

theorem pres_set (ps : List Particle) (i : ℕ) (a : Particle)
    (ha : Keeps (getP ps i) a) : Pres ps (ps.set i a) := by
  refine ⟨List.length_set .., fun k => ?_⟩
  rw [getP_set]
  split
  · next h => exact h.1 ▸ ha
  · exact keeps_rfl _

theorem pres_set2 (ps : List Particle) (i j : ℕ) (a b : Particle)
    (ha : Keeps (getP ps i) a) (hb : Keeps (getP ps j) b) :
    Pres ps ((ps.set i a).set j b) := by
  refine pres_trans (pres_set ps i a ha) (pres_set _ j b ?_)
  rw [getP_set]
  split
  · next h => exact keeps_compat (h.1 ▸ ha) hb
  · exact hb

theorem pres_map (f : Particle → Particle) (hf : ∀ p, Keeps p (f p))
    (ps : List Particle) : Pres ps (ps.map f) := by
  refine ⟨List.length_map .., fun i => ?_⟩
  rw [getP_map]
  split
  · exact hf _
  · next h => rw [getP_default_of_le ps i (by omega)]; exact keeps_rfl _

theorem pres_idxMap (f : ℕ → Particle → Particle)
    (hf : ∀ i p, Keeps p (f i p)) (ps : List Particle) :
    Pres ps (idxMap f ps) := by
  refine ⟨length_idxMap .., fun i => ?_⟩
  rw [getP_idxMap]
  split
  · exact hf _ _
  · next h => rw [getP_default_of_le ps i (by omega)]; exact keeps_rfl _

theorem pres_foldl {β : Type} (g : List Particle → β → List Particle)
    (h : ∀ s a, Pres s (g s a)) :
    ∀ (l : List β) (ps : List Particle), Pres ps (l.foldl g ps) := by
  intro l
  induction l with
  | nil => intro ps; exact pres_rfl ps
  | cons a rest ih =>
    intro ps
    exact pres_trans (h ps a) (ih (g ps a))

theorem pres_foldl_snd {β γ : Type}
    (g : γ × List Particle → β → γ × List Particle)
    (h : ∀ s a, Pres s.2 (g s a).2) :
    ∀ (l : List β) (acc : γ × List Particle),
      Pres acc.2 (l.foldl g acc).2 := by
  intro l
  induction l with
  | nil => intro acc; exact pres_rfl acc.2
  | cons a rest ih =>
    intro acc
    exact pres_trans (h acc a) (ih (g acc a))

theorem pres_modPos (ps : List Particle) (i : ℕ) (f : Vec2 → Vec2)
    (hfix : (getP ps i).fixed = true → f (getP ps i).pos = (getP ps i).pos) :
    Pres ps (modPos ps i f) := by
  refine pres_set ps i _ ⟨rfl, rfl, rfl, fun hf => ?_⟩
  exact particle_ext (by simpa using hfix hf) rfl rfl rfl rfl

end PreservationMachinery

section StagePreservation

theorem add_smul_zero (v n : Vec2) (r : ℝ) (h : r = 0) : v + n * r = v := by
  subst h
  exact vec2_ext (by simp) (by simp)

theorem sub_smul_zero (v n : Vec2) (r : ℝ) (h : r = 0) : v - n * r = v := by
  subst h
  exact vec2_ext (by simp) (by simp)

theorem fixed_modPos (ps : List Particle) (i : ℕ) (f : Vec2 → Vec2) (k : ℕ) :
    (getP (modPos ps i f) k).fixed = (getP ps k).fixed := by
  unfold modPos
  rw [getP_set]
  split
  · next h => rw [← h.1]
  · rfl

theorem inv_mass_of_fixed {p : Particle} (h : p.fixed = true) :
    p.inv_mass = 0 := by
  simp [Particle.inv_mass, h]

theorem pres_dist_update (c : DistanceConstraint) (ps : List Particle)
    (dt eps : ℝ) : Pres ps (c.update ps dt eps).2 := by
  unfold DistanceConstraint.update
  split
  · dsimp only
    split
    · exact pres_rfl ps
    · split
      · -- XPBD branch
        dsimp only
        refine pres_trans (pres_modPos _ _ _ ?_) (pres_modPos _ _ _ ?_)
        · intro h
          exact add_smul_zero _ _ _ (by rw [inv_mass_of_fixed h]; ring)
        · intro h
          rw [fixed_modPos] at h
          exact add_smul_zero _ _ _ (by rw [inv_mass_of_fixed h]; ring)
      · -- classic PBD branch
        dsimp only
        refine pres_trans (pres_modPos _ _ _ ?_) (pres_modPos _ _ _ ?_)
        · intro h
          exact add_smul_zero _ _ _ (by rw [inv_mass_of_fixed h]; ring)
        · intro h
          rw [fixed_modPos] at h
          exact sub_smul_zero _ _ _ (by rw [inv_mass_of_fixed h]; ring)
  · exact pres_rfl ps

theorem pres_applyPositional (c : Constraint) (ps : List Particle) (dt : ℝ) :
    Pres ps (c.applyPositional ps dt).2 := by
  cases c with
  | dist d => exact pres_dist_update d ps dt 1e-9
  | spring s => exact pres_rfl ps
  | pin p => exact pres_rfl ps

theorem pres_constraintPass (cs : List Constraint) (ps : List Particle)
    (dt : ℝ) : Pres ps (constraintPass cs ps dt).2 := by
  unfold constraintPass
  refine pres_foldl_snd
    (fun (acc : List Constraint × List Particle) c =>
      (acc.1 ++ [(c.applyPositional acc.2 dt).1], (c.applyPositional acc.2 dt).2))
    (fun s a => ?_) cs ([], ps)
  exact pres_applyPositional a s.2 dt

theorem pres_rigid_solve (rb : RigidBody) (ps : List Particle) :
    Pres ps (rb.solve ps).2 := by
  unfold RigidBody.solve
  split
  · exact pres_rfl ps
  · split
    · exact pres_rfl ps
    · split
      · exact pres_rfl ps
      · dsimp only
        refine pres_foldl _ (fun s pr => ?_) _ ps
        split
        · exact pres_rfl s
        · next hnf =>
          refine pres_modPos _ _ _ (fun h => ?_)
          exact absurd h hnf

theorem pres_cloth_solve (cl : Cloth) (ps : List Particle) (dt : ℝ) :
    Pres ps (cl.solve ps dt).2 := by
  unfold Cloth.solve
  split
  · exact pres_rfl ps
  · dsimp only
    refine pres_foldl_snd
      (fun (acc : List DistanceConstraint × List Particle) c =>
        (acc.1 ++ [(c.update acc.2 dt 1e-9).1], (c.update acc.2 dt 1e-9).2))
      (fun s a => ?_) cl.constraints ([], ps)
    exact pres_dist_update a s.2 dt 1e-9

theorem pres_group_solve (g : WGroup) (ps : List Particle) (dt : ℝ) :
    Pres ps (g.solve ps dt).2 := by
  cases g with
  | rigid rb => exact pres_rigid_solve rb ps
  | cloth cl => exact pres_cloth_solve cl ps dt

theorem pres_groupPass (gs : List WGroup) (ps : List Particle) (dt : ℝ) :
    Pres ps (groupPass gs ps dt).2 := by
  unfold groupPass
  refine pres_foldl_snd
    (fun (acc : List WGroup × List Particle) g =>
      (acc.1 ++ [(g.solve acc.2 dt).1], (g.solve acc.2 dt).2))
    (fun s a => ?_) gs ([], ps)
  exact pres_group_solve a s.2 dt

theorem pres_relaxStep (dt : ℝ)
    (st : List Constraint × List WGroup × List Particle) :
    Pres st.2.2 (relaxStep dt st).2.2 := by
  unfold relaxStep
  exact pres_trans (pres_constraintPass st.1 st.2.2 dt)
    (pres_groupPass st.2.1 (constraintPass st.1 st.2.2 dt).2 dt)

theorem pres_relaxIter (dt : ℝ) (n : ℕ) :
    ∀ st : List Constraint × List WGroup × List Particle,
      Pres st.2.2 ((relaxStep dt)^[n] st).2.2 := by
  induction n with
  | zero => intro st; exact pres_rfl _
  | succ n ih =>
    intro st
    rw [Function.iterate_succ_apply]
    exact pres_trans (pres_relaxStep dt st) (ih (relaxStep dt st))

theorem keeps_integrateVel (forces : List Vec2) (dt : ℝ) (i : ℕ)
    (p : Particle) :
    Keeps p (if p.fixed = false ∧ p.mass ≠ 0 then
      { p with vel := p.vel + forces.getD i default / p.mass * dt } else p) := by
  split
  · next h => exact ⟨rfl, rfl, rfl, fun hf => by simp [hf] at h⟩
  · exact keeps_rfl p

theorem pres_integrateVel (ps : List Particle) (forces : List Vec2)
    (dt : ℝ) : Pres ps (integrateVel ps forces dt) :=
  pres_idxMap _ (fun i p => keeps_integrateVel forces dt i p) ps

theorem pres_integratePos (ps : List Particle) (dt : ℝ) :
    Pres ps (integratePos ps dt) := by
  refine pres_map _ (fun p => ?_) ps
  split
  · next h => exact ⟨rfl, rfl, rfl, fun hf => by simp [hf] at h⟩
  · exact keeps_rfl p

theorem keeps_clamp (w : World) (p : Particle) :
    Keeps p (applyBoundaryConstraints w p) := by
  unfold applyBoundaryConstraints
  split
  · exact keeps_rfl p
  · next h => exact ⟨rfl, rfl, rfl, fun hf => absurd hf h⟩

theorem keeps_restitution (w : World) (p : Particle) :
    Keeps p (applyBoundaryRestitution w p) := by
  unfold applyBoundaryRestitution
  split
  · exact keeps_rfl p
  · next h => exact ⟨rfl, rfl, rfl, fun hf => absurd hf h⟩

theorem resolve_keeps (p1 p2 : Particle) (r pct sl mc : ℝ) :
    Keeps p1 (resolve_particle_collision p1 p2 r pct sl mc).1 ∧
    Keeps p2 (resolve_particle_collision p1 p2 r pct sl mc).2 := by
  unfold resolve_particle_collision
  dsimp only
  split_ifs <;>
    refine ⟨⟨rfl, rfl, rfl, fun hf => ?_⟩, ⟨rfl, rfl, rfl, fun hf => ?_⟩⟩ <;>
    first
      | rfl
      | (exfalso; simp_all)

theorem pres_resolvePairStep (r : ℝ) (ps : List Particle) (pr : ℕ × ℕ) :
    Pres ps (resolvePairStep r ps pr) := by
  unfold resolvePairStep
  dsimp only
  split
  · exact pres_rfl ps
  · split
    · exact pres_set2 ps pr.1 pr.2 _ _ (resolve_keeps _ _ _ _ _ _).1
        (resolve_keeps _ _ _ _ _ _).2
    · exact pres_rfl ps

theorem pres_bruteStep (r : ℝ) (ps : List Particle) (pr : ℕ × ℕ) :
    Pres ps (bruteStep r ps pr) := by
  unfold bruteStep
  dsimp only
  split
  · exact pres_set2 ps pr.1 pr.2 _ _ (resolve_keeps _ _ _ _ _ _).1
      (resolve_keeps _ _ _ _ _ _).2
  · exact pres_rfl ps

theorem pres_resolvePairs (r : ℝ) (ps : List Particle)
    (pairs : List (ℕ × ℕ)) : Pres ps (resolvePairs r ps pairs) :=
  pres_foldl _ (fun s pr => pres_resolvePairStep r s pr) pairs ps

end StagePreservation

section UpdatePreservation

theorem rebuildVerlet_particles (w : World) :
    (rebuildVerlet w).particles = w.particles := by
  unfold rebuildVerlet
  dsimp only
  split <;> rfl

theorem rebuildVerlet_width (w : World) : (rebuildVerlet w).width = w.width := by
  unfold rebuildVerlet
  dsimp only
  split <;> rfl

theorem rebuildVerlet_height (w : World) :
    (rebuildVerlet w).height = w.height := by
  unfold rebuildVerlet
  dsimp only
  split <;> rfl

theorem pres_collisionFallback (w : World) :
    Pres w.particles (collisionFallback w).particles := by
  unfold collisionFallback
  dsimp only
  split
  · exact pres_foldl _ (fun s pr => pres_bruteStep w.restitution s pr) _ _
  · exact pres_resolvePairs _ _ _

theorem collisionFallback_width (w : World) :
    (collisionFallback w).width = w.width := by
  unfold collisionFallback
  dsimp only
  split <;> rfl

theorem collisionFallback_height (w : World) :
    (collisionFallback w).height = w.height := by
  unfold collisionFallback
  dsimp only
  split <;> rfl

theorem pres_collisionResolveBody (n : ℕ) (w1 : World) :
    Pres w1.particles (collisionResolveBody n w1).particles := by
  unfold collisionResolveBody
  split
  · split
    · dsimp only
      split
      · exact pres_rfl _
      · exact pres_resolvePairs _ _ _
    · exact pres_collisionFallback _
  · exact pres_collisionFallback _

theorem collisionResolveBody_width (n : ℕ) (w1 : World) :
    (collisionResolveBody n w1).width = w1.width := by
  unfold collisionResolveBody
  split
  · split
    · dsimp only
      split <;> rfl
    · exact collisionFallback_width _
  · exact collisionFallback_width _

theorem collisionResolveBody_height (n : ℕ) (w1 : World) :
    (collisionResolveBody n w1).height = w1.height := by
  unfold collisionResolveBody
  split
  · split
    · dsimp only
      split <;> rfl
    · exact collisionFallback_height _
  · exact collisionFallback_height _

theorem pres_collisionIteration (w : World) :
    Pres w.particles (collisionIteration w).particles := by
  unfold collisionIteration
  dsimp only
  split
  · have h := pres_collisionResolveBody w.particles.length (rebuildVerlet w)
    rwa [rebuildVerlet_particles] at h
  · exact pres_collisionResolveBody w.particles.length _

theorem collisionIteration_width (w : World) :
    (collisionIteration w).width = w.width := by
  unfold collisionIteration
  dsimp only
  split
  · rw [collisionResolveBody_width, rebuildVerlet_width]
  · rw [collisionResolveBody_width]

theorem collisionIteration_height (w : World) :
    (collisionIteration w).height = w.height := by
  unfold collisionIteration
  dsimp only
  split
  · rw [collisionResolveBody_height, rebuildVerlet_height]
  · rw [collisionResolveBody_height]

theorem pres_handleCollisions (w : World) :
    Pres w.particles (handleCollisions w).particles := by
  unfold handleCollisions
  generalize max 1 w.collision_iterations = n
  induction n generalizing w with
  | zero => exact pres_rfl _
  | succ n ih =>
    rw [Function.iterate_succ_apply]
    exact pres_trans (pres_collisionIteration w) (ih (collisionIteration w))

theorem handleCollisions_width (w : World) :
    (handleCollisions w).width = w.width := by
  unfold handleCollisions
  generalize max 1 w.collision_iterations = n
  induction n generalizing w with
  | zero => rfl
  | succ n ih =>
    rw [Function.iterate_succ_apply, ih (collisionIteration w),
      collisionIteration_width]

theorem handleCollisions_height (w : World) :
    (handleCollisions w).height = w.height := by
  unfold handleCollisions
  generalize max 1 w.collision_iterations = n
  induction n generalizing w with
  | zero => rfl
  | succ n ih =>
    rw [Function.iterate_succ_apply, ih (collisionIteration w),
      collisionIteration_height]

theorem pres_preRecon (w : World) (dt : ℝ) :
    Pres w.particles (w.preRecon dt).particles := by
  unfold World.preRecon
  dsimp only
  refine pres_trans (pres_integrateVel w.particles (computeForces w) dt) ?_
  refine pres_trans (pres_integratePos _ dt) ?_
  refine pres_trans
    (pres_relaxIter dt (max 1 w.constraint_iterations)
      (w.constraints, w.groups, _)) ?_
  refine pres_trans (pres_map _ (fun p => keeps_clamp w p) _) ?_
  exact pres_trans (pres_handleCollisions _)
    (pres_map _ (fun p => keeps_clamp _ p) _)

theorem preRecon_width (w : World) (dt : ℝ) :
    (w.preRecon dt).width = w.width := by
  unfold World.preRecon
  dsimp only
  rw [handleCollisions_width]

theorem preRecon_height (w : World) (dt : ℝ) :
    (w.preRecon dt).height = w.height := by
  unfold World.preRecon
  dsimp only
  rw [handleCollisions_height]

theorem keeps_velocityUpdate (pb : List Vec2) (dt : ℝ) (i : ℕ)
    (p : Particle) :
    Keeps p (if p.fixed = false ∧ dt > 1e-9 then
      { p with vel := (p.pos - pb.getD i default) / dt } else p) := by
  split
  · next h => exact ⟨rfl, rfl, rfl, fun hf => by simp [hf] at h⟩
  · exact keeps_rfl p

theorem pres_velocityUpdate (w : World) (pb : List Vec2) (dt : ℝ) :
    Pres w.particles (velocityUpdate w pb dt).particles := by
  unfold velocityUpdate
  exact pres_idxMap _ (fun i p => keeps_velocityUpdate pb dt i p) w.particles

theorem pres_restitutionPass (w : World) :
    Pres w.particles (restitutionPass w).particles := by
  unfold restitutionPass
  exact pres_map _ (fun p => keeps_restitution w p) w.particles

/-- Master preservation lemma for the whole step: `World.update` never
changes the particle count, never changes any particle's radius, mass or
fixed flag, and leaves fixed particles entirely untouched. -/
theorem pres_update (w : World) (dt : ℝ) :
    Pres w.particles (w.update dt).particles := by
  unfold World.update
  split
  · exact pres_rfl _
  · dsimp only
    refine pres_trans (pres_preRecon w dt) ?_
    refine pres_trans
      (pres_velocityUpdate _ (w.particles.map (fun p => p.pos.copy)) dt) ?_
    exact pres_restitutionPass _

end UpdatePreservation

section FrameAndBounds

theorem restitution_pos (w : World) (p : Particle) :
    (applyBoundaryRestitution w p).pos = p.pos := by
  unfold applyBoundaryRestitution
  split <;> rfl

theorem pos_restitutionPass (w : World) (k : ℕ) :
    (getP (restitutionPass w).particles k).pos = (getP w.particles k).pos := by
  unfold restitutionPass
  dsimp only
  rw [getP_map]
  split
  · rw [restitution_pos]
  · next h => rw [getP_default_of_le _ k (by omega)]

theorem pos_velocityUpdate (w : World) (pb : List Vec2) (dt : ℝ) (k : ℕ) :
    (getP (velocityUpdate w pb dt).particles k).pos =
      (getP w.particles k).pos := by
  unfold velocityUpdate
  dsimp only
  rw [getP_idxMap]
  split
  · split <;> rfl
  · next h => rw [getP_default_of_le _ k (by omega)]

theorem clamp_bounds (w : World) (p : Particle) (hf : p.fixed = false)
    (hx : 2 * p.radius ≤ w.width) (hy : 2 * p.radius ≤ w.height) :
    p.radius ≤ (applyBoundaryConstraints w p).pos.x ∧
    (applyBoundaryConstraints w p).pos.x ≤ w.width - p.radius ∧
    p.radius ≤ (applyBoundaryConstraints w p).pos.y ∧
    (applyBoundaryConstraints w p).pos.y ≤ w.height - p.radius := by
  unfold applyBoundaryConstraints
  rw [if_neg (by simp [hf])]
  refine ⟨?_, ?_, ?_, ?_⟩ <;> dsimp only <;> split_ifs <;> linarith

theorem preRecon_particles_eq (w : World) (dt : ℝ) :
    ∃ w4 : World, w4.width = w.width ∧ w4.height = w.height ∧
      Pres w.particles w4.particles ∧
      (w.preRecon dt).particles =
        w4.particles.map (applyBoundaryConstraints w4) := by
  unfold World.preRecon
  dsimp only
  refine ⟨_, ?_, ?_, ?_, rfl⟩
  · rw [handleCollisions_width]
  · rw [handleCollisions_height]
  · refine pres_trans (pres_integrateVel w.particles (computeForces w) dt) ?_
    refine pres_trans (pres_integratePos _ dt) ?_
    refine pres_trans
      (pres_relaxIter dt (max 1 w.constraint_iterations)
        (w.constraints, w.groups, _)) ?_
    refine pres_trans (pres_map _ (fun p => keeps_clamp w p) _) ?_
    exact pres_handleCollisions _

end FrameAndBounds

/-- C1: for every particle `p` of a world `w` with `p.fixed = true`,
`w.update(dt)` leaves `p.pos` unchanged, for every `dt` and regardless of
gravity, friction, springs, distance constraints, group solvers, boundary
passes and collision resolution.  (Because `World.update` invokes
`PinConstraint.update` with a `dt` argument it does not accept, the
swallowed `TypeError` means not even a Pin constraint relocates a fixed
particle, so no exception to the invariant is needed.) -/
theorem fixed_particle_pos_unchanged_by_update (w : World) (dt : ℝ) (i : ℕ)
    (hi : i < w.particles.length)
    (hf : (getP w.particles i).fixed = true) :
    (getP (w.update dt).particles i).pos = (getP w.particles i).pos := by
  have h := (pres_update w dt).2 i
  rw [h.2.2.2 hf]

/-- A small concrete world holding one fixed particle (prebuilt Verlet
state), used to instantiate the fixed-particle frame theorem. -/
def wFixed : World :=
  { width := 100, height := 100, gravity := ⟨0, 0⟩, friction := 0,
    restitution := 0.5,
    particles := [⟨⟨10, 20⟩, ⟨0, 0⟩, 6, 1, true⟩],
    constraints := [], groups := [],
    collision_iterations := 1, constraint_iterations := 2, bounce := 0.5,
    cell_size := 10, verlet_rebuild_freq := 5, verlet_skin := 4,
    verlet_list := some [[]], verlet_frame_counter := 1, verlet_last_n := 1 }

/-- Witness for C1 at a concrete input. -/
theorem fixed_particle_pos_unchanged_witness :
    0 < wFixed.particles.length ∧
    (getP wFixed.particles 0).fixed = true ∧
    (getP (wFixed.update (1 / 60)).particles 0).pos =
      (getP wFixed.particles 0).pos := by
  refine ⟨by simp [wFixed], by simp [wFixed, getP], ?_⟩
  exact fixed_particle_pos_unchanged_by_update wFixed (1 / 60) 0
    (by simp [wFixed]) (by simp [wFixed, getP])

/-- C9: after `update(dt)`, every non-fixed particle whose diameter fits in
the world lies inside `[radius, dimension - radius]` on both axes (the
positional clamp runs once before collision resolution and once after; the
final clamp is last to touch positions). -/
theorem update_confines_particles (w : World) (dt : ℝ) (i : ℕ)
    (hi : i < w.particles.length)
    (hnf : (getP w.particles i).fixed = false)
    (hrw : 2 * (getP w.particles i).radius ≤ min w.width w.height) :
    (getP w.particles i).radius ≤ (getP (w.update dt).particles i).pos.x ∧
    (getP (w.update dt).particles i).pos.x ≤
      w.width - (getP w.particles i).radius ∧
    (getP w.particles i).radius ≤ (getP (w.update dt).particles i).pos.y ∧
    (getP (w.update dt).particles i).pos.y ≤
      w.height - (getP w.particles i).radius := by
  obtain ⟨w4, hw, hh, hpres4, hmap⟩ := preRecon_particles_eq w dt
  have hupd : (w.update dt).particles =
      (restitutionPass (velocityUpdate (w.preRecon dt)
        (w.particles.map (fun p => p.pos.copy)) dt)).particles := by
    unfold World.update
    rw [if_neg (by omega)]
  have hpos : (getP (w.update dt).particles i).pos =
      (getP (w.preRecon dt).particles i).pos := by
    rw [hupd, pos_restitutionPass, pos_velocityUpdate]
  have hi4 : i < w4.particles.length := by
    rw [hpres4.1]; exact hi
  have hku := hpres4.2 i
  have hr : (getP w4.particles i).radius = (getP w.particles i).radius :=
    hku.1
  have hfq : (getP w4.particles i).fixed = false := hku.2.2.1.trans hnf
  have hb := clamp_bounds w4 (getP w4.particles i) hfq
    (by rw [hr, hw]; exact le_trans hrw (min_le_left _ _))
    (by rw [hr, hh]; exact le_trans hrw (min_le_right _ _))
  have hfinal : (getP (w.update dt).particles i).pos =
      (applyBoundaryConstraints w4 (getP w4.particles i)).pos := by
    rw [hpos, hmap, getP_map, if_pos hi4]
  rw [hfinal]
  rw [hr, hw, hh] at hb
  exact hb

/-- A small concrete world holding one free particle, used to instantiate
the confinement theorem. -/
def wFree : World :=
  { width := 100, height := 100, gravity := ⟨0, 0⟩, friction := 0,
    restitution := 0.5,
    particles := [⟨⟨50, 50⟩, ⟨0, 0⟩, 6, 1, false⟩],
    constraints := [], groups := [],
    collision_iterations := 1, constraint_iterations := 2, bounce := 0.5,
    cell_size := 10, verlet_rebuild_freq := 5, verlet_skin := 4,
    verlet_list := some [[]], verlet_frame_counter := 1, verlet_last_n := 1 }

/-- Witness for C9 at a concrete input. -/
theorem update_confines_particles_witness :
    0 < wFree.particles.length ∧
    (getP wFree.particles 0).fixed = false ∧
    2 * (getP wFree.particles 0).radius ≤ min wFree.width wFree.height ∧
    ((getP wFree.particles 0).radius ≤
        (getP (wFree.update (1 / 60)).particles 0).pos.x ∧
      (getP (wFree.update (1 / 60)).particles 0).pos.x ≤
        wFree.width - (getP wFree.particles 0).radius ∧
      (getP wFree.particles 0).radius ≤
        (getP (wFree.update (1 / 60)).particles 0).pos.y ∧
      (getP (wFree.update (1 / 60)).particles 0).pos.y ≤
        wFree.height - (getP wFree.particles 0).radius) := by
  refine ⟨by simp [wFree], by simp [wFree, getP], ?_, ?_⟩
  · simp [wFree, getP]
    norm_num
  · exact update_confines_particles wFree (1 / 60) 0 (by simp [wFree])
      (by simp [wFree, getP]) (by simp [wFree, getP]; norm_num)

section VelocityReconciliation

theorem Vec2.copy_eq (a : Vec2) : a.copy = a := vec2_ext rfl rfl

theorem getD_posmap (ps : List Particle) :
    ∀ i : ℕ, i < ps.length →
      (ps.map (fun p => p.pos.copy)).getD i default = (getP ps i).pos := by
  induction ps with
  | nil => intro i hi; simp at hi
  | cons p rest ih =>
    intro i hi
    cases i with
    | zero => simp [getP, Vec2.copy_eq]
    | succ i =>
      simp only [List.map_cons, List.getD_cons_succ, getP]
      exact ih i (by simpa using hi)

/-- C3 (amended): whenever `dt > 1e-9`, the PBD velocity update sets every
non-fixed particle's velocity to the net positional displacement of the
step divided by `dt`, and `update` runs exactly that stage right before the
boundary-restitution pass.  (The source guards the reconciliation with
`dt > 1e-9`, not with `dt > 0`.) -/
theorem velocity_reconciliation (w : World) (dt : ℝ) (i : ℕ)
    (hi : i < w.particles.length) (hdt : dt > 1e-9)
    (hnf : (getP w.particles i).fixed = false) :
    (getP (velocityUpdate (w.preRecon dt)
        (w.particles.map (fun p => p.pos.copy)) dt).particles i).vel =
      ((getP (w.preRecon dt).particles i).pos - (getP w.particles i).pos) / dt ∧
    w.update dt = restitutionPass (velocityUpdate (w.preRecon dt)
        (w.particles.map (fun p => p.pos.copy)) dt) := by
  constructor
  · have hnf' : (getP (w.preRecon dt).particles i).fixed = false :=
      ((pres_preRecon w dt).2 i).2.2.1.trans hnf
    have hi' : i < (w.preRecon dt).particles.length := by
      rw [(pres_preRecon w dt).1]; exact hi
    unfold velocityUpdate
    dsimp only
    rw [getP_idxMap, if_pos hi', if_pos ⟨hnf', hdt⟩]
    dsimp only
    rw [getD_posmap w.particles i hi]
  · unfold World.update
    rw [if_neg (by omega)]

/-- Witness for the amended C3 at a concrete input. -/
theorem velocity_reconciliation_witness :
    0 < wFree.particles.length ∧ (1 / 60 : ℝ) > 1e-9 ∧
    (getP wFree.particles 0).fixed = false ∧
    ((getP (velocityUpdate (wFree.preRecon (1 / 60))
        (wFree.particles.map (fun p => p.pos.copy)) (1 / 60)).particles 0).vel =
      ((getP (wFree.preRecon (1 / 60)).particles 0).pos -
        (getP wFree.particles 0).pos) / ((1 : ℝ) / 60) ∧
      wFree.update (1 / 60) = restitutionPass (velocityUpdate
        (wFree.preRecon (1 / 60))
        (wFree.particles.map (fun p => p.pos.copy)) (1 / 60))) := by
  refine ⟨by simp [wFree], by norm_num, by simp [wFree, getP], ?_⟩
  exact velocity_reconciliation wFree (1 / 60) 0 (by simp [wFree])
    (by norm_num) (by simp [wFree, getP])

/-- Concrete world for the C3 counterexample: a single fast particle and a
time step below the `1e-9` guard. -/
def wC3 : World :=
  { width := 100, height := 100, gravity := ⟨0, 0⟩, friction := 0,
    restitution := 0.5,
    particles := [⟨⟨50, 50⟩, ⟨1e13, 0⟩, 6, 1, false⟩],
    constraints := [], groups := [],
    collision_iterations := 1, constraint_iterations := 2, bounce := 0.5,
    cell_size := 10, verlet_rebuild_freq := 5, verlet_skin := 4,
    verlet_list := some [[]], verlet_frame_counter := 1, verlet_last_n := 1 }

/-- Evaluation helper: one collision iteration on a world whose Verlet list
is the prebuilt singleton `[[]]` (one particle, no neighbours) inside its
rebuild window just bumps the frame counter twice. -/
theorem collisionIteration_single (w : World)
    (h1 : w.verlet_list = some [[]])
    (h2 : w.particles.length = 1)
    (h3 : w.verlet_last_n = 1)
    (h4 : ¬ w.verlet_frame_counter % max 1 w.verlet_rebuild_freq = 0) :
    collisionIteration w =
      { w with verlet_frame_counter := w.verlet_frame_counter + 2 } := by
  unfold collisionIteration
  dsimp only
  rw [if_neg (by simp [h1, h2, h3, h4])]
  unfold collisionResolveBody
  dsimp only
  simp only [h1, h2, verletPairs, List.enum, List.length_cons,
    List.length_nil]
  norm_num

/-- Evaluation helper: `_handle_collisions` with `collision_iterations = 1`
on such a world. -/
theorem handleCollisions_single (w : World)
    (hci : w.collision_iterations = 1)
    (h1 : w.verlet_list = some [[]])
    (h2 : w.particles.length = 1)
    (h3 : w.verlet_last_n = 1)
    (h4 : ¬ w.verlet_frame_counter % max 1 w.verlet_rebuild_freq = 0) :
    handleCollisions w =
      { w with verlet_frame_counter := w.verlet_frame_counter + 2 } := by
  unfold handleCollisions
  rw [show max 1 w.collision_iterations = 1 by simp [hci], Function.iterate_one]
  exact collisionIteration_single w h1 h2 h3 h4

theorem wC3_preRecon :
    (wC3.preRecon (1e-10)).particles =
      [⟨⟨94, 50⟩, ⟨1e13, 0⟩, 6, 1, false⟩] := by
  have hforces : computeForces wC3 = [⟨0, 0⟩] := by
    norm_num [computeForces, wC3]
  have hiv : integrateVel wC3.particles [(⟨0, 0⟩ : Vec2)] (1e-10) =
      [⟨⟨50, 50⟩, ⟨1e13, 0⟩, 6, 1, false⟩] := by
    norm_num [integrateVel, idxMap, idxMapAux, wC3]
  have hip : integratePos [⟨⟨50, 50⟩, ⟨1e13, 0⟩, 6, 1, false⟩] (1e-10) =
      [⟨⟨1050, 50⟩, ⟨1e13, 0⟩, 6, 1, false⟩] := by
    norm_num [integratePos]
  have hrelax : (relaxStep (1e-10))^[max 1 wC3.constraint_iterations]
      (wC3.constraints, wC3.groups,
        [(⟨⟨1050, 50⟩, ⟨1e13, 0⟩, 6, 1, false⟩ : Particle)]) =
      (wC3.constraints, wC3.groups,
        [(⟨⟨1050, 50⟩, ⟨1e13, 0⟩, 6, 1, false⟩ : Particle)]) := by
    apply Function.iterate_fixed
    norm_num [relaxStep, constraintPass, groupPass, wC3]
  unfold World.preRecon
  dsimp only
  rw [hforces, hiv, hip, hrelax]
  norm_num [wC3, applyBoundaryConstraints, getP, handleCollisions_single]

/-- Counterexample to C3 as stated: at the positive step `dt = 1e-10` the
reconciliation is skipped (`dt > 1e-9` fails), so the velocity entering the
restitution pass is the force-integrated one, not the displacement
quotient. -/
theorem velocity_reconciliation_fails_for_positive_dt :
    (0 : ℝ) < 1e-10 ∧
    (getP (velocityUpdate (wC3.preRecon (1e-10))
        (wC3.particles.map (fun p => p.pos.copy)) (1e-10)).particles 0).vel ≠
      ((getP (wC3.preRecon (1e-10)).particles 0).pos -
        (getP wC3.particles 0).pos) / ((1e-10 : ℝ)) := by
  constructor
  · norm_num
  · unfold velocityUpdate
    dsimp only
    rw [wC3_preRecon]
    norm_num [idxMap, idxMapAux, getP, wC3, Vec2.mk.injEq]

end VelocityReconciliation

section SpringDamping

theorem sqrt_of_sq (a b : ℝ) (hb : 0 ≤ b) (h : b * b = a) :
    Real.sqrt a = b := by
  rw [← h]
  exact Real.sqrt_mul_self hb

/-- C7 (amended): a `Spring` built without a damping argument stores
`2·sqrt(stiffness)` — independent of the endpoint masses — and an explicit
damping value is stored verbatim. -/
theorem spring_default_damping (p1 p2 : ℕ) (length stiffness d : ℝ) :
    (Spring.make p1 p2 length stiffness none).damping =
      2 * Real.sqrt stiffness ∧
    (Spring.make p1 p2 length stiffness (some d)).damping = d :=
  ⟨rfl, rfl⟩

/-- Counterexample to C7 as stated: endpoints of mass 9 each with stiffness
4 give the stored default damping `2·sqrt(4) = 4`, not the critical value
`2·sqrt(stiffness · averageMass) = 2·sqrt(4·9) = 12`. -/
theorem spring_default_damping_counterexample :
    (Spring.make 0 1 100 4 none).damping ≠
      2 * Real.sqrt (4 *
        (((getP [⟨⟨0, 0⟩, ⟨0, 0⟩, 6, 9, false⟩,
             ⟨⟨100, 0⟩, ⟨0, 0⟩, 6, 9, false⟩] 0).mass +
          (getP [⟨⟨0, 0⟩, ⟨0, 0⟩, 6, 9, false⟩,
             ⟨⟨100, 0⟩, ⟨0, 0⟩, 6, 9, false⟩] 1).mass) / 2)) := by
  have h4 : Real.sqrt 4 = 2 := sqrt_of_sq 4 2 (by norm_num) (by norm_num)
  have h36 : Real.sqrt (4 * ((9 + (9 : ℝ)) / 2)) = 6 := by
    rw [show (4 * ((9 + (9 : ℝ)) / 2)) = 36 by norm_num]
    exact sqrt_of_sq 36 6 (by norm_num) (by norm_num)
  simp only [Spring.make, getP, List.getD_cons_zero, List.getD_cons_succ]
  rw [h4, h36]
  norm_num

end SpringDamping

section DistanceCorrection

theorem getP_modPos_self (ps : List Particle) (i : ℕ) (f : Vec2 → Vec2)
    (hi : i < ps.length) :
    getP (modPos ps i f) i = { getP ps i with pos := f (getP ps i).pos } := by
  unfold modPos
  rw [getP_set, if_pos ⟨rfl, hi⟩]

theorem getP_modPos_ne (ps : List Particle) (i : ℕ) (f : Vec2 → Vec2)
    (k : ℕ) (hik : i ≠ k) : getP (modPos ps i f) k = getP ps k := by
  unfold modPos
  rw [getP_set, if_neg (by tauto)]

theorem length_modPos (ps : List Particle) (i : ℕ) (f : Vec2 → Vec2) :
    (modPos ps i f).length = ps.length := List.length_set ..

/-- C6 (amended): `DistanceConstraint.update` (classic PBD, `compliance=0`)
applies no slop tolerance to the violation: whenever the current distance is
at least `eps` and the total inverse mass is nonzero, both endpoints move by
the equal-and-opposite inverse-mass-weighted corrections `(wi·s)·n` and
`−(wj·s)·n`, `s = stiffness·(L − rest)/(wi + wj)`, however small the
violation; fixed endpoints (inverse mass 0) receive zero correction; when
the distance is below `eps` or the total inverse mass is zero nothing
moves. -/
theorem distance_constraint_correction (i j : ℕ) (rest stiff dt eps : ℝ)
    (ps : List Particle) (hi : i < ps.length) (hj : j < ps.length)
    (hij : i ≠ j) :
    (((getP ps j).pos - (getP ps i).pos).length < eps ∨
        (getP ps i).inv_mass + (getP ps j).inv_mass = 0 →
      ((DistanceConstraint.make i j rest stiff).update ps dt eps).2 = ps) ∧
    (¬ (((getP ps j).pos - (getP ps i).pos).length < eps ∨
        (getP ps i).inv_mass + (getP ps j).inv_mass = 0) →
      (getP (((DistanceConstraint.make i j rest stiff).update ps dt eps).2) i).pos =
        (getP ps i).pos +
          (((getP ps j).pos - (getP ps i).pos) /
              ((getP ps j).pos - (getP ps i).pos).length) *
            ((getP ps i).inv_mass *
              (stiff * (((getP ps j).pos - (getP ps i).pos).length - rest) /
                ((getP ps i).inv_mass + (getP ps j).inv_mass))) ∧
      (getP (((DistanceConstraint.make i j rest stiff).update ps dt eps).2) j).pos =
        (getP ps j).pos -
          (((getP ps j).pos - (getP ps i).pos) /
              ((getP ps j).pos - (getP ps i).pos).length) *
            ((getP ps j).inv_mass *
              (stiff * (((getP ps j).pos - (getP ps i).pos).length - rest) /
                ((getP ps i).inv_mass + (getP ps j).inv_mass))) ∧
      ((getP ps i).fixed = true →
        (getP (((DistanceConstraint.make i j rest stiff).update ps dt eps).2) i).pos =
          (getP ps i).pos) ∧
      ((getP ps j).fixed = true →
        (getP (((DistanceConstraint.make i j rest stiff).update ps dt eps).2) j).pos =
          (getP ps j).pos)) := by
  have hne : j ≠ i := fun h => hij h.symm
  constructor
  · intro hg
    unfold DistanceConstraint.update
    dsimp only [DistanceConstraint.make]
    rw [if_pos ⟨hi, hj⟩, if_pos hg]
  · intro hg
    have hupd : ((DistanceConstraint.make i j rest stiff).update ps dt eps).2 =
        modPos (modPos ps i (fun pos => pos +
          (((getP ps j).pos - (getP ps i).pos) /
              ((getP ps j).pos - (getP ps i).pos).length) *
            ((getP ps i).inv_mass *
              (stiff * (((getP ps j).pos - (getP ps i).pos).length - rest) /
                ((getP ps i).inv_mass + (getP ps j).inv_mass))))) j
          (fun pos => pos -
            (((getP ps j).pos - (getP ps i).pos) /
                ((getP ps j).pos - (getP ps i).pos).length) *
              ((getP ps j).inv_mass *
                (stiff * (((getP ps j).pos - (getP ps i).pos).length - rest) /
                  ((getP ps i).inv_mass + (getP ps j).inv_mass)))) := by
      unfold DistanceConstraint.update
      dsimp only [DistanceConstraint.make]
      rw [if_pos ⟨hi, hj⟩, if_neg hg, if_neg (by norm_num)]
    refine ⟨?_, ?_, ?_, ?_⟩
    · rw [hupd, getP_modPos_ne _ j _ i hne, getP_modPos_self _ i _ hi]
    · rw [hupd, getP_modPos_self _ j _ (by rw [length_modPos]; exact hj),
        getP_modPos_ne _ i _ j hij]
    · intro hf
      rw [hupd, getP_modPos_ne _ j _ i hne, getP_modPos_self _ i _ hi]
      show (getP ps i).pos + _ = (getP ps i).pos
      exact add_smul_zero _ _ _ (by rw [inv_mass_of_fixed hf]; ring)
    · intro hf
      rw [hupd, getP_modPos_self _ j _ (by rw [length_modPos]; exact hj),
        getP_modPos_ne _ i _ j hij]
      show (getP ps j).pos - _ = (getP ps j).pos
      exact sub_smul_zero _ _ _ (by rw [inv_mass_of_fixed hf]; ring)

end DistanceCorrection

section DistanceCorrectionInstances

/-- Two unit-mass particles a 3-4-5 distance apart. -/
def psC6 : List Particle :=
  [⟨⟨0, 0⟩, ⟨0, 0⟩, 6, 1, false⟩, ⟨⟨3, 4⟩, ⟨0, 0⟩, 6, 1, false⟩]

/-- Witness for the amended C6 at a concrete input. -/
theorem distance_constraint_correction_witness :
    0 < psC6.length ∧ 1 < psC6.length ∧ (0 : ℕ) ≠ 1 ∧
    ((((getP psC6 1).pos - (getP psC6 0).pos).length < 1e-9 ∨
        (getP psC6 0).inv_mass + (getP psC6 1).inv_mass = 0 →
      ((DistanceConstraint.make 0 1 5 1).update psC6 (1 / 60) 1e-9).2 = psC6) ∧
    (¬ (((getP psC6 1).pos - (getP psC6 0).pos).length < 1e-9 ∨
        (getP psC6 0).inv_mass + (getP psC6 1).inv_mass = 0) →
      (getP (((DistanceConstraint.make 0 1 5 1).update psC6 (1 / 60) 1e-9).2) 0).pos =
        (getP psC6 0).pos +
          (((getP psC6 1).pos - (getP psC6 0).pos) /
              ((getP psC6 1).pos - (getP psC6 0).pos).length) *
            ((getP psC6 0).inv_mass *
              (1 * (((getP psC6 1).pos - (getP psC6 0).pos).length - 5) /
                ((getP psC6 0).inv_mass + (getP psC6 1).inv_mass))) ∧
      (getP (((DistanceConstraint.make 0 1 5 1).update psC6 (1 / 60) 1e-9).2) 1).pos =
        (getP psC6 1).pos -
          (((getP psC6 1).pos - (getP psC6 0).pos) /
              ((getP psC6 1).pos - (getP psC6 0).pos).length) *
            ((getP psC6 1).inv_mass *
              (1 * (((getP psC6 1).pos - (getP psC6 0).pos).length - 5) /
                ((getP psC6 0).inv_mass + (getP psC6 1).inv_mass))) ∧
      ((getP psC6 0).fixed = true →
        (getP (((DistanceConstraint.make 0 1 5 1).update psC6 (1 / 60) 1e-9).2) 0).pos =
          (getP psC6 0).pos) ∧
      ((getP psC6 1).fixed = true →
        (getP (((DistanceConstraint.make 0 1 5 1).update psC6 (1 / 60) 1e-9).2) 1).pos =
          (getP psC6 1).pos))) := by
  refine ⟨by norm_num [psC6], by norm_num [psC6], by norm_num, ?_⟩
  exact distance_constraint_correction 0 1 5 1 (1 / 60) 1e-9 psC6
    (by norm_num [psC6]) (by norm_num [psC6]) (by norm_num)

/-- Counterexample to C6 as stated: a violation of only `1e-12` — far below
any plausible slop tolerance — still moves the endpoints: the rest distance
is `5 + 1e-12` while the current distance is `5`, and the first endpoint is
displaced. -/
theorem distance_constraint_no_slop_counterexample :
    |(((getP psC6 1).pos - (getP psC6 0).pos).length - (5 + 1e-12 : ℝ))| ≤
      1e-12 ∧
    (getP (((DistanceConstraint.make 0 1 (5 + 1e-12) 1).update psC6 (1 / 60)
        1e-9).2) 0).pos ≠ (getP psC6 0).pos := by
  have h25 : Real.sqrt (25 : ℝ) = 5 :=
    sqrt_of_sq 25 5 (by norm_num) (by norm_num)
  constructor
  · norm_num [psC6, getP, Vec2.length, h25, abs_le]
  · norm_num [DistanceConstraint.update, DistanceConstraint.make, psC6, getP,
      modPos, Particle.inv_mass, Vec2.length, h25, Vec2.mk.injEq]

end DistanceCorrectionInstances

section CollisionSymmetry

@[simp] theorem Vec2.neg_def (a : Vec2) : -a = ⟨-a.x, -a.y⟩ := rfl

theorem collision_inv_eq (p : Particle) :
    (if p.fixed = true then (0 : ℝ)
     else if p.mass ≠ 0 then 1 / p.mass else 0) = p.inv_mass := by
  unfold Particle.inv_mass
  split_ifs <;> simp_all

theorem inv_mass_nonneg (p : Particle) (hm : 0 ≤ p.mass) :
    0 ≤ p.inv_mass := by
  unfold Particle.inv_mass
  split_ifs
  · exact le_refl 0
  · positivity

/-- C8: positional corrections of `resolve_particle_collision` lie on the
line of centers, are distributed proportionally to inverse mass (hence equal
and opposite for equal masses), velocities are never touched, and a
fixed-fixed pair is skipped with no state change at all. -/
theorem resolve_collision_symmetry (p1 p2 : Particle)
    (restn percent slop maxc : ℝ)
    (hpct : 0 ≤ percent) (hmc : 0 ≤ maxc)
    (hm1 : 0 < p1.mass) (hm2 : 0 < p2.mass) :
    (p1.fixed = false → p2.fixed = false →
      (p2.pos - p1.pos).length > 1e-9 →
      ∃ k : ℝ, 0 ≤ k ∧
        (resolve_particle_collision p1 p2 restn percent slop maxc).1.pos =
          p1.pos - ((p2.pos - p1.pos) / (p2.pos - p1.pos).length) *
            (p1.inv_mass * k) ∧
        (resolve_particle_collision p1 p2 restn percent slop maxc).2.pos =
          p2.pos + ((p2.pos - p1.pos) / (p2.pos - p1.pos).length) *
            (p2.inv_mass * k) ∧
        (p1.mass = p2.mass →
          (resolve_particle_collision p1 p2 restn percent slop maxc).1.pos -
              p1.pos =
            -((resolve_particle_collision p1 p2 restn percent slop maxc).2.pos -
              p2.pos))) ∧
    ((p1.fixed = true ∧ p2.fixed = true) →
      resolve_particle_collision p1 p2 restn percent slop maxc = (p1, p2)) := by
  constructor
  · intro hf1 hf2 hdist
    unfold resolve_particle_collision
    dsimp only
    rw [if_neg (by simp [hf1])]
    rw [if_neg (not_le.mpr hdist), if_neg (not_le.mpr hdist)]
    rw [if_neg (show ¬ p1.fixed = true by simp [hf1]),
      if_pos (show p1.mass ≠ 0 from ne_of_gt hm1),
      if_neg (show ¬ p2.fixed = true by simp [hf2]),
      if_pos (show p2.mass ≠ 0 from ne_of_gt hm2)]
    rw [if_neg (show ¬ (1 / p1.mass + 1 / p2.mass = 0) from
      ne_of_gt (by positivity))]
    have hinv1 : p1.inv_mass = 1 / p1.mass := by
      unfold Particle.inv_mass
      rw [if_neg (by simp [hf1, ne_of_gt hm1])]
    have hinv2 : p2.inv_mass = 1 / p2.mass := by
      unfold Particle.inv_mass
      rw [if_neg (by simp [hf2, ne_of_gt hm2])]
    by_cases hpen :
        p1.radius + p2.radius - (p2.pos - p1.pos).length > slop
    · rw [if_pos hpen]
      rw [if_pos (show ¬ p1.fixed = true by simp [hf1]),
        if_pos (show ¬ p2.fixed = true by simp [hf2])]
      refine ⟨min ((p1.radius + p2.radius - (p2.pos - p1.pos).length - slop) *
          percent) maxc / (1 / p1.mass + 1 / p2.mass), ?_, ?_, ?_, ?_⟩
      · have h1 : (0 : ℝ) ≤ (p1.radius + p2.radius -
            (p2.pos - p1.pos).length - slop) * percent :=
          mul_nonneg (by linarith) hpct
        have h2 : (0 : ℝ) < 1 / p1.mass + 1 / p2.mass := by positivity
        exact div_nonneg (le_min h1 hmc) h2.le
      · refine vec2_ext ?_ ?_ <;>
          simp only [hinv1, Vec2.sub_def, Vec2.sdiv_def, Vec2.smul_def] <;>
          ring
      · refine vec2_ext ?_ ?_ <;>
          simp only [hinv2, Vec2.add_def, Vec2.sub_def, Vec2.sdiv_def,
            Vec2.smul_def] <;>
          ring
      · intro hmass
        refine vec2_ext ?_ ?_ <;>
          simp only [hmass, Vec2.add_def, Vec2.sub_def, Vec2.sdiv_def,
            Vec2.smul_def, Vec2.neg_def] <;>
          ring
    · rw [if_neg hpen]
      refine ⟨0, le_refl 0, ?_, ?_, ?_⟩
      · exact (sub_smul_zero _ _ _ (by ring)).symm
      · exact (add_smul_zero _ _ _ (by ring)).symm
      · intro _
        simp
  · intro h
    unfold resolve_particle_collision
    rw [if_pos h]

end CollisionSymmetry

section CollisionInstances

/-- Overlapping unit-mass test particles (centre distance 3, radii 2). -/
def pW1 : Particle := ⟨⟨0, 0⟩, ⟨0, 0⟩, 2, 1, false⟩

def pW2 : Particle := ⟨⟨3, 0⟩, ⟨0, 0⟩, 2, 1, false⟩

/-- Overlapping fixed-fixed test pair. -/
def pF1 : Particle := ⟨⟨0, 0⟩, ⟨0, 0⟩, 2, 1, true⟩

def pF2 : Particle := ⟨⟨1, 0⟩, ⟨0, 0⟩, 2, 1, true⟩

/-- Witness for C8 at concrete inputs (an equal-mass overlapping pair and a
fixed-fixed pair). -/
theorem resolve_collision_symmetry_witness :
    (0 : ℝ) ≤ 0.2 ∧ (0 : ℝ) ≤ 0.5 ∧ 0 < pW1.mass ∧ 0 < pW2.mass ∧
    pW1.fixed = false ∧ pW2.fixed = false ∧
    (pW2.pos - pW1.pos).length > 1e-9 ∧
    (∃ k : ℝ, 0 ≤ k ∧
      (resolve_particle_collision pW1 pW2 0.3 0.2 0.01 0.5).1.pos =
        pW1.pos - ((pW2.pos - pW1.pos) / (pW2.pos - pW1.pos).length) *
          (pW1.inv_mass * k) ∧
      (resolve_particle_collision pW1 pW2 0.3 0.2 0.01 0.5).2.pos =
        pW2.pos + ((pW2.pos - pW1.pos) / (pW2.pos - pW1.pos).length) *
          (pW2.inv_mass * k) ∧
      (pW1.mass = pW2.mass →
        (resolve_particle_collision pW1 pW2 0.3 0.2 0.01 0.5).1.pos -
            pW1.pos =
          -((resolve_particle_collision pW1 pW2 0.3 0.2 0.01 0.5).2.pos -
            pW2.pos))) ∧
    resolve_particle_collision pF1 pF2 0.3 0.2 0.01 0.5 = (pF1, pF2) := by
  have h9 : Real.sqrt (9 : ℝ) = 3 := sqrt_of_sq 9 3 (by norm_num) (by norm_num)
  have hlen : (pW2.pos - pW1.pos).length > 1e-9 := by
    norm_num [pW1, pW2, Vec2.length, h9]
  refine ⟨by norm_num, by norm_num, by norm_num [pW1], by norm_num [pW2],
    rfl, rfl, hlen, ?_, ?_⟩
  · exact (resolve_collision_symmetry pW1 pW2 0.3 0.2 0.01 0.5 (by norm_num)
      (by norm_num) (by norm_num [pW1]) (by norm_num [pW2])).1 rfl rfl hlen
  · exact (resolve_collision_symmetry pF1 pF2 0.3 0.2 0.01 0.5 (by norm_num)
      (by norm_num) (by norm_num [pF1]) (by norm_num [pF2])).2 ⟨rfl, rfl⟩

/-- C10: when the centre distance is at most `1e-9` and at least one
particle is non-fixed, `resolve_particle_collision` substitutes the unit
x-axis for the contact normal and separates the pair along it by real
(finite, explicitly given) inverse-mass-weighted amounts; the second
coordinates are untouched and no division by the near-zero distance
occurs. -/
theorem resolve_coincident_uses_x_axis (p1 p2 : Particle)
    (restn percent slop maxc : ℝ)
    (hpct : 0 ≤ percent) (hmc : 0 ≤ maxc)
    (hm1 : 0 ≤ p1.mass) (hm2 : 0 ≤ p2.mass)
    (hnear : (p2.pos - p1.pos).length ≤ 1e-9)
    (hnb : ¬ (p1.fixed = true ∧ p2.fixed = true)) :
    ∃ c : ℝ, 0 ≤ c ∧
      (resolve_particle_collision p1 p2 restn percent slop maxc).1.pos =
        ⟨p1.pos.x - p1.inv_mass * c, p1.pos.y⟩ ∧
      (resolve_particle_collision p1 p2 restn percent slop maxc).2.pos =
        ⟨p2.pos.x + p2.inv_mass * c, p2.pos.y⟩ := by
  unfold resolve_particle_collision
  dsimp only
  rw [if_neg hnb, if_pos hnear, if_pos hnear,
    collision_inv_eq p1, collision_inv_eq p2]
  by_cases hsum : p1.inv_mass + p2.inv_mass = 0
  · rw [if_pos hsum]
    exact ⟨0, le_refl 0, vec2_ext (by ring) rfl, vec2_ext (by ring) rfl⟩
  · rw [if_neg hsum]
    by_cases hpen : p1.radius + p2.radius - 1e-9 > slop
    · rw [if_pos hpen]
      refine ⟨min ((p1.radius + p2.radius - 1e-9 - slop) * percent) maxc /
        (p1.inv_mass + p2.inv_mass), ?_, ?_, ?_⟩
      · have hn1 := inv_mass_nonneg p1 hm1
        have hn2 := inv_mass_nonneg p2 hm2
        exact div_nonneg (le_min (mul_nonneg (by linarith) hpct) hmc)
          (by linarith)
      · by_cases hf : p1.fixed = true
        · rw [if_neg (not_not_intro hf)]
          exact vec2_ext (by rw [inv_mass_of_fixed hf]; ring) rfl
        · rw [if_pos hf]
          exact vec2_ext (by dsimp only; ring) (by dsimp only; ring)
      · by_cases hf : p2.fixed = true
        · rw [if_neg (not_not_intro hf)]
          exact vec2_ext (by rw [inv_mass_of_fixed hf]; ring) rfl
        · rw [if_pos hf]
          exact vec2_ext (by dsimp only; ring) (by dsimp only; ring)
    · rw [if_neg hpen]
      exact ⟨0, le_refl 0, vec2_ext (by ring) rfl, vec2_ext (by ring) rfl⟩

/-- Coincident test pair (identical centres). -/
def pCo1 : Particle := ⟨⟨5, 5⟩, ⟨0, 0⟩, 2, 1, false⟩

def pCo2 : Particle := ⟨⟨5, 5⟩, ⟨0, 0⟩, 2, 1, false⟩

/-- Witness for C10 at a concrete coincident pair. -/
theorem resolve_coincident_uses_x_axis_witness :
    (0 : ℝ) ≤ 0.2 ∧ (0 : ℝ) ≤ 0.5 ∧ 0 ≤ pCo1.mass ∧ 0 ≤ pCo2.mass ∧
    (pCo2.pos - pCo1.pos).length ≤ 1e-9 ∧
    ¬ (pCo1.fixed = true ∧ pCo2.fixed = true) ∧
    (∃ c : ℝ, 0 ≤ c ∧
      (resolve_particle_collision pCo1 pCo2 0.3 0.2 0.01 0.5).1.pos =
        ⟨pCo1.pos.x - pCo1.inv_mass * c, pCo1.pos.y⟩ ∧
      (resolve_particle_collision pCo1 pCo2 0.3 0.2 0.01 0.5).2.pos =
        ⟨pCo2.pos.x + pCo2.inv_mass * c, pCo2.pos.y⟩) := by
  have hnear : (pCo2.pos - pCo1.pos).length ≤ 1e-9 := by
    norm_num [pCo1, pCo2, Vec2.length]
  refine ⟨by norm_num, by norm_num, by norm_num [pCo1], by norm_num [pCo2],
    hnear, by simp [pCo1], ?_⟩
  exact resolve_coincident_uses_x_axis pCo1 pCo2 0.3 0.2 0.01 0.5
    (by norm_num) (by norm_num) (by norm_num [pCo1]) (by norm_num [pCo2])
    hnear (by simp [pCo1])

end CollisionInstances

section PinConstraintBug

/-- World holding one particle pinned at anchor `(50,50)` while sitting at
`(10,10)`: the `PinConstraint` is in the constraint list and the particle
has been marked fixed by the pin's constructor. -/
def wPin : World :=
  { width := 100, height := 100, gravity := ⟨0, 0⟩, friction := 0,
    restitution := 0.5,
    particles := [⟨⟨10, 10⟩, ⟨0, 0⟩, 6, 1, true⟩],
    constraints := [Constraint.pin ⟨0, ⟨50, 50⟩⟩], groups := [],
    collision_iterations := 1, constraint_iterations := 2, bounce := 0.5,
    cell_size := 10, verlet_rebuild_freq := 5, verlet_skin := 4,
    verlet_list := some [[]], verlet_frame_counter := 1, verlet_last_n := 1 }

theorem wPin_preRecon : (wPin.preRecon (1 / 60)).particles = wPin.particles := by
  have hforces : computeForces wPin = [⟨0, 0⟩] := by
    norm_num [computeForces, wPin]
  have hiv : integrateVel wPin.particles [(⟨0, 0⟩ : Vec2)] (1 / 60) =
      wPin.particles := by
    norm_num [integrateVel, idxMap, idxMapAux, wPin]
  have hip : integratePos wPin.particles (1 / 60) = wPin.particles := by
    norm_num [integratePos, wPin]
  have hrelax : (relaxStep (1 / 60))^[max 1 wPin.constraint_iterations]
      (wPin.constraints, wPin.groups, wPin.particles) =
      (wPin.constraints, wPin.groups, wPin.particles) := by
    apply Function.iterate_fixed
    norm_num [relaxStep, constraintPass, groupPass, Constraint.applyPositional,
      wPin]
  unfold World.preRecon
  dsimp only
  rw [hforces, hiv, hip, hrelax]
  norm_num [wPin, applyBoundaryConstraints, getP, handleCollisions_single]

/-- C5: `PinConstraint.__init__` does mark the particle fixed, but
`World.update` never enforces the anchor: the call `c.update(dt)` raises
`TypeError` (`PinConstraint.update` takes no `dt`), the `try/except`
swallows it, and the pinned particle simply stays where it was — here at
`(10,10)`, not at the anchor `(50,50)`. -/
theorem pin_constraint_not_enforced_by_update :
    (PinConstraint.make [⟨⟨10, 10⟩, ⟨0, 0⟩, 6, 1, false⟩] 0 ⟨50, 50⟩).2 =
      [⟨⟨10, 10⟩, ⟨0, 0⟩, 6, 1, true⟩] ∧
    (getP (wPin.update (1 / 60)).particles 0).pos = ⟨10, 10⟩ ∧
    (⟨10, 10⟩ : Vec2) ≠ (⟨50, 50⟩ : Vec2) := by
  refine ⟨by simp [PinConstraint.make, getP], ?_, ?_⟩
  · have hpos : (getP (wPin.update (1 / 60)).particles 0).pos =
        (getP (wPin.preRecon (1 / 60)).particles 0).pos := by
      unfold World.update
      rw [if_neg (by norm_num [wPin])]
      dsimp only
      rw [pos_restitutionPass, pos_velocityUpdate]
    rw [hpos, wPin_preRecon]
    simp [wPin, getP]
  · simp only [ne_eq, Vec2.mk.injEq]
    norm_num

end PinConstraintBug

section Serialization

/-- The particle dictionary `PhysicsEncoder.default` tries to emit:
`{pos, old_pos, acceleration, radius, mass, fixed}` (`serialization.py`). -/
structure ParticleJson where
  pos : Vec2
  old_pos : Vec2
  acceleration : Vec2
  radius : ℝ
  mass : ℝ
  fixed : Bool

/-- Attribute lookup `particle.old_pos`: the `Particle` class
(`Particle.py`) defines `pos`, `vel`, `radius`, the `mass`/`fixed`
properties and `inv_mass` — there is no `old_pos` attribute, so the lookup
raises `AttributeError`. -/
def Particle.old_pos_attr (p : Particle) : Option Vec2 := none

/-- Attribute lookup `particle.acceleration`: likewise missing. -/
def Particle.acceleration_attr (p : Particle) : Option Vec2 := none

/-- `PhysicsEncoder.default` on a `Particle`: reads `obj.old_pos` and
`obj.acceleration`, so it raises `AttributeError` for every particle of the
current `Particle` class. -/
def encodeParticle (p : Particle) : Except String ParticleJson :=
  match p.old_pos_attr with
  | none => .error "AttributeError: old_pos"
  | some op =>
    match p.acceleration_attr with
    | none => .error "AttributeError: acceleration"
    | some acc => .ok ⟨p.pos, op, acc, p.radius, p.mass, p.fixed⟩

/-- Constraint records of the persisted format: kind, endpoint indices and
scalar parameters. -/
inductive ConstraintJson
  | dist (p1_idx p2_idx : ℕ) (distance : ℝ)
  | spring (p1_idx p2_idx : ℕ) (length stiffness : ℝ)

/-- The persisted file contents. -/
structure WorldJson where
  width : ℝ
  height : ℝ
  gravity : Vec2
  particles : List ParticleJson
  constraints : List ConstraintJson

/-- `save_world(world, filename)`: build the data dictionary (constraints
mapped to endpoint indices; in the index model `c.p1` already is the
index), then `json.dump` with `PhysicsEncoder`, which serializes `width`,
`height`, `gravity` and then calls `default` on each particle — raising
`AttributeError` at the first one. Constraints of other kinds (pins) are
skipped by the `isinstance` tests. -/
def save_world (w : World) : Except String WorldJson :=
  let cjs := w.constraints.foldl (fun acc c =>
    match c with
    | .dist d => acc ++ [ConstraintJson.dist d.p1 d.p2 d.distance]
    | .spring s =>
        acc ++ [ConstraintJson.spring s.p1 s.p2 s.length s.stiffness]
    | .pin _ => acc) []
  match w.particles.mapM encodeParticle with
  | .error e => .error e
  | .ok pjs => .ok ⟨w.width, w.height, w.gravity, pjs, cjs⟩

/-- What `physics_decoder` actually builds for a particle record: it calls
`Particle(dct['pos'], dct['radius'], dct['mass'], dct['fixed'])`, but the
constructor signature is `(pos, vel=None, radius=6, mass=1.0, fixed=False)`
— so the stored radius lands in `vel` (as a bare float), the stored mass in
`radius`, the stored fixed flag in `mass` (coerced by `float(...)`), and
`fixed` keeps its default `False`. -/
structure DecodedParticle where
  pos : Vec2
  vel : ℝ
  radius : ℝ
  mass : ℝ
  fixed : Bool
  old_pos : Vec2
  acceleration : Vec2

/-- `physics_decoder` on a particle record (only reachable from a
hand-written file, since `save_world` cannot produce one). -/
def decodeParticle (pj : ParticleJson) : DecodedParticle :=
  ⟨pj.pos, pj.radius, pj.mass, if pj.fixed then 1 else 0, false,
    pj.old_pos, pj.acceleration⟩

/-- Two-particle world with one `DistanceConstraint`, the round-trip test
input. -/
def wSer : World :=
  { width := 200, height := 200, gravity := ⟨0, 981⟩, friction := 0.1,
    restitution := 0.5,
    particles := [⟨⟨40, 40⟩, ⟨0, 0⟩, 6, 1, false⟩,
                  ⟨⟨60, 40⟩, ⟨0, 0⟩, 6, 1, false⟩],
    constraints := [Constraint.dist (DistanceConstraint.make 0 1 20 1)],
    groups := [],
    collision_iterations := 4, constraint_iterations := 2, bounce := 0.5,
    cell_size := 20, verlet_rebuild_freq := 5, verlet_skin := 8,
    verlet_list := none, verlet_frame_counter := 0, verlet_last_n := 0 }

/-- C2: `save_world` fails with `AttributeError` on any world that owns a
particle — the encoder reads `Particle.old_pos` and
`Particle.acceleration`, which the `Particle` class does not define — so
`load_world(save_world(w, f), f)` cannot round-trip even this plain
distance-constrained world. -/
theorem save_world_raises_attribute_error :
    save_world wSer = Except.error "AttributeError: old_pos" := rfl

end Serialization

noncomputable section NaNModel

/-- IEEE-style float for the non-finite analysis of `World.update`:
`none` models a non-finite value (NaN); `some x` a finite float modelled as
the real `x`.  Arithmetic propagates `none`; ordered comparisons involving
`none` are false (IEEE NaN semantics).  Division is total here
(`some a / some 0 = none`): every division in the translated code is behind
a nonzero guard, so the `ZeroDivisionError` case is unreachable on the
inputs analysed. -/
def NFloat := Option ℝ

/-- Finite float. -/
def fin (x : ℝ) : NFloat := some x

/-- The non-finite float. -/
def nan : NFloat := none

instance : Inhabited NFloat := ⟨fin 0⟩

def NFloat.add : NFloat → NFloat → NFloat
  | some a, some b => some (a + b)
  | _, _ => none

def NFloat.sub : NFloat → NFloat → NFloat
  | some a, some b => some (a - b)
  | _, _ => none

def NFloat.mul : NFloat → NFloat → NFloat
  | some a, some b => some (a * b)
  | _, _ => none

def NFloat.div : NFloat → NFloat → NFloat
  | some a, some b => if b = 0 then none else some (a / b)
  | _, _ => none

def NFloat.neg : NFloat → NFloat
  | some a => some (-a)
  | none => none

instance : Add NFloat := ⟨NFloat.add⟩
instance : Sub NFloat := ⟨NFloat.sub⟩
instance : Mul NFloat := ⟨NFloat.mul⟩
instance : Div NFloat := ⟨NFloat.div⟩
instance : Neg NFloat := ⟨NFloat.neg⟩

/-- IEEE `<`: false when either side is NaN. -/
def NFloat.lt : NFloat → NFloat → Prop
  | some a, some b => a < b
  | _, _ => False

/-- IEEE `<=`: false when either side is NaN. -/
def NFloat.le : NFloat → NFloat → Prop
  | some a, some b => a ≤ b
  | _, _ => False

/-- IEEE `==`: false when either side is NaN. -/
def NFloat.feq : NFloat → NFloat → Prop
  | some a, some b => a = b
  | _, _ => False

instance : ∀ a b : NFloat, Decidable (NFloat.lt a b)
  | some a, some b => (inferInstance : Decidable (a < b))
  | some _, none => isFalse id
  | none, some _ => isFalse id
  | none, none => isFalse id

instance : ∀ a b : NFloat, Decidable (NFloat.le a b)
  | some a, some b => (inferInstance : Decidable (a ≤ b))
  | some _, none => isFalse id
  | none, some _ => isFalse id
  | none, none => isFalse id

instance : ∀ a b : NFloat, Decidable (NFloat.feq a b)
  | some a, some b => (inferInstance : Decidable (a = b))
  | some _, none => isFalse id
  | none, some _ => isFalse id
  | none, none => isFalse id

/-- `math.isfinite`. -/
def NFloat.isfinite : NFloat → Prop
  | some _ => True
  | none => False

instance : ∀ a : NFloat, Decidable a.isfinite
  | some _ => isTrue trivial
  | none => isFalse id

/-- Python `max(a, b)` on floats: keep the first unless the second compares
greater. -/
def NFloat.fmax (a b : NFloat) : NFloat := if NFloat.lt a b then b else a

/-- Python `min(a, b)` on floats: keep the first unless the second compares
smaller. -/
def NFloat.fmin (a b : NFloat) : NFloat := if NFloat.lt b a then b else a

/-- `math.sqrt` under the NaN model (negative arguments cannot reach it in
the translated code; `Real.sqrt` clamps them to 0). -/
def NFloat.fsqrt : NFloat → NFloat
  | some a => some (Real.sqrt a)
  | none => none

/-- `abs` on floats. -/
def NFloat.fabs : NFloat → NFloat
  | some a => some |a|
  | none => none

/-- `math.copysign(m, s)` for the clamp in `Spring.compute_force`. -/
def NFloat.fcopysign (m s : NFloat) : NFloat :=
  match m, s with
  | some m, some s => some (if s < 0 then -|m| else |m|)
  | _, _ => none

/-- `math.cos` lifted. -/
def NFloat.fcos : NFloat → NFloat
  | some a => some (Real.cos a)
  | none => none

/-- `math.sin` lifted. -/
def NFloat.fsin : NFloat → NFloat
  | some a => some (Real.sin a)
  | none => none

/-- `math.atan2` lifted (NaN in, NaN out). -/
def NFloat.fatan2 : NFloat → NFloat → NFloat
  | some y, some x => some (atan2 y x)
  | _, _ => none

/-- `Vec2` over the NaN model. -/
structure Vec2F where
  x : NFloat
  y : NFloat

instance : Inhabited Vec2F := ⟨⟨fin 0, fin 0⟩⟩

instance : Add Vec2F := ⟨fun a b => ⟨a.x + b.x, a.y + b.y⟩⟩
instance : Sub Vec2F := ⟨fun a b => ⟨a.x - b.x, a.y - b.y⟩⟩
instance : HMul Vec2F NFloat Vec2F := ⟨fun a s => ⟨a.x * s, a.y * s⟩⟩
instance : HDiv Vec2F NFloat Vec2F := ⟨fun a s => ⟨a.x / s, a.y / s⟩⟩

/-- `Vec2.length` (`math.hypot`) under the NaN model. -/
def Vec2F.length (a : Vec2F) : NFloat := (a.x * a.x + a.y * a.y).fsqrt

def Vec2F.copy (a : Vec2F) : Vec2F := ⟨a.x, a.y⟩

/-- `Particle` over the NaN model. -/
structure ParticleF where
  pos : Vec2F
  vel : Vec2F
  radius : NFloat
  mass : NFloat
  fixed : Bool

instance : Inhabited ParticleF :=
  ⟨⟨⟨fin 0, fin 0⟩, ⟨fin 0, fin 0⟩, fin 6, fin 1, false⟩⟩

/-- Stored inverse mass under the NaN model (`_update_inv_mass`; note the
Python `==` comparison, false for NaN masses). -/
def ParticleF.inv_mass (p : ParticleF) : NFloat :=
  if p.fixed = true ∨ NFloat.feq p.mass (fin 0) then fin 0
  else fin 1 / p.mass

def getPF (ps : List ParticleF) (i : ℕ) : ParticleF := ps.getD i default

def modPosF (ps : List ParticleF) (i : ℕ) (f : Vec2F → Vec2F) :
    List ParticleF :=
  ps.set i { getPF ps i with pos := f (getPF ps i).pos }

/-- `DistanceConstraint` over the NaN model. -/
structure DistanceConstraintF where
  p1 : ℕ
  p2 : ℕ
  distance : NFloat
  stiffness : NFloat
  compliance : NFloat
  lagrange : NFloat

/-- `DistanceConstraint.update` over the NaN model (same structure as the
real-valued translation; comparisons are IEEE). -/
def DistanceConstraintF.update (c : DistanceConstraintF)
    (ps : List ParticleF) (dt : ℝ) (eps : ℝ) :
    DistanceConstraintF × List ParticleF :=
  if c.p1 < ps.length ∧ c.p2 < ps.length then
    let pi := (getPF ps c.p1).pos
    let pj := (getPF ps c.p2).pos
    let wi := (getPF ps c.p1).inv_mass
    let wj := (getPF ps c.p2).inv_mass
    let d := pj - pi
    let len_d := d.length
    if NFloat.lt len_d (fin eps) ∨ NFloat.feq (wi + wj) (fin 0) then (c, ps)
    else
      let n := d / len_d
      let C := len_d - c.distance
      let wsum := wi + wj
      if NFloat.lt (fin 0) c.compliance then
        let gamma := c.compliance / (fin dt * fin dt)
        let d_lambda := -(C + gamma * c.lagrange) / (wsum + gamma)
        let ps1 := modPosF ps c.p1 (fun pos => pos + n * (-wi * d_lambda))
        let ps2 := modPosF ps1 c.p2 (fun pos => pos + n * (wj * d_lambda))
        ({ c with lagrange := c.lagrange + d_lambda }, ps2)
      else
        let s := c.stiffness * C / wsum
        let ps1 := modPosF ps c.p1 (fun pos => pos + n * (wi * s))
        let ps2 := modPosF ps1 c.p2 (fun pos => pos - n * (wj * s))
        (c, ps2)
  else (c, ps)

/-- `Spring` over the NaN model. -/
structure SpringF where
  p1 : ℕ
  p2 : ℕ
  length : NFloat
  stiffness : NFloat
  damping : NFloat

/-- `Spring.compute_force` over the NaN model; here the two
`math.isfinite` guards are live: a NaN distance or NaN force scalar yields
the zero force. -/
def SpringF.computeForce (s : SpringF) (ps : List ParticleF)
    (p1pos p2pos p1vel p2vel : Vec2F) : Vec2F :=
  let direction : Vec2F := ⟨p2pos.x - p1pos.x, p2pos.y - p1pos.y⟩
  let distance := direction.length
  if ¬ distance.isfinite ∨ NFloat.feq distance (fin 0) then ⟨fin 0, fin 0⟩
  else
    let n : Vec2F := ⟨direction.x / distance, direction.y / distance⟩
    let x := distance - s.length
    let v_rel := (p2vel.x - p1vel.x) * n.x + (p2vel.y - p1vel.y) * n.y
    let m := ((getPF ps s.p1).mass + (getPF ps s.p2).mass) * fin 0.5
    let critical_c :=
      fin 2 * (s.stiffness * NFloat.fmax m (fin 1e-9)).fmax (fin 0) |>.fsqrt
    let c := s.damping
    let force_scalar := -(s.stiffness * x + c * v_rel)
    if ¬ force_scalar.isfinite then ⟨fin 0, fin 0⟩
    else
      let max_force := NFloat.fmax (fin 1e4) (s.stiffness.fabs * fin 1e3)
      let force_scalar :=
        if NFloat.lt max_force force_scalar.fabs then
          NFloat.fcopysign max_force force_scalar
        else force_scalar
      let _ := critical_c
      ⟨n.x * force_scalar, n.y * force_scalar⟩

/-- `PinConstraint` over the NaN model. -/
structure PinConstraintF where
  p : ℕ
  pos : Vec2F

inductive ConstraintF
  | dist : DistanceConstraintF → ConstraintF
  | spring : SpringF → ConstraintF
  | pin : PinConstraintF → ConstraintF

/-- `RigidBody` over the NaN model. -/
structure RigidBodyF where
  indices : List ℕ
  rest_rel : List Vec2F
  stiffness : NFloat
  fixed : Bool
  rest_com : Vec2F

/-- Sum of a list of NFloats starting from `0.0` (Python `+=`
accumulation). -/
def nsum (l : List NFloat) : NFloat := l.foldl (· + ·) (fin 0)

/-- `RigidBody.solve` over the NaN model. -/
def RigidBodyF.solve (rb : RigidBodyF) (ps : List ParticleF) :
    RigidBodyF × List ParticleF :=
  if rb.indices.length = 0 ∨ rb.fixed = true then (rb, ps)
  else if ¬ rb.indices.all (· < ps.length) then (rb, ps)
  else if rb.indices.length = 1 then (rb, ps)
  else
    let objs := rb.indices.map (getPF ps)
    let count := objs.length
    let com_x := nsum (objs.map (fun p => p.pos.x)) / fin count
    let com_y := nsum (objs.map (fun p => p.pos.y)) / fin count
    let com : Vec2F := ⟨com_x, com_y⟩
    let zipped := objs.zip rb.rest_rel
    let a := nsum (zipped.map (fun pr =>
      (pr.1.pos.x - com.x) * pr.2.x + (pr.1.pos.y - com.y) * pr.2.y))
    let b := nsum (zipped.map (fun pr =>
      (pr.1.pos.x - com.x) * pr.2.y - (pr.1.pos.y - com.y) * pr.2.x))
    let cos_t := if NFloat.feq a (fin 0) ∧ NFloat.feq b (fin 0) then fin 1
      else (NFloat.fatan2 b a).fcos
    let sin_t := if NFloat.feq a (fin 0) ∧ NFloat.feq b (fin 0) then fin 0
      else (NFloat.fatan2 b a).fsin
    let alpha := NFloat.fmax (fin 0) (NFloat.fmin (fin 1) rb.stiffness)
    let ps' := (rb.indices.zip rb.rest_rel).foldl (fun cur pr =>
      if (getPF cur pr.1).fixed = true then cur
      else
        let tx := com.x + (cos_t * pr.2.x - sin_t * pr.2.y)
        let ty := com.y + (sin_t * pr.2.x + cos_t * pr.2.y)
        modPosF cur pr.1 (fun pos => ⟨pos.x + alpha * (tx - pos.x),
                                      pos.y + alpha * (ty - pos.y)⟩)) ps
    ({ rb with rest_com := com }, ps')

/-- `Cloth` over the NaN model. -/
structure ClothF where
  indices : List ℕ
  width : ℕ
  height : ℕ
  stiffness : NFloat
  tear_distance_factor : NFloat
  fixed : Bool
  constraints : List DistanceConstraintF

/-- `Cloth.solve` over the NaN model. -/
def ClothF.solve (cl : ClothF) (ps : List ParticleF) (dt : ℝ) :
    ClothF × List ParticleF :=
  if cl.fixed = true then (cl, ps)
  else
    let step := cl.constraints.foldl
      (fun (acc : List DistanceConstraintF × List ParticleF) c =>
        let r := c.update acc.2 dt 1e-9
        (acc.1 ++ [r.1], r.2)) ([], ps)
    let cs := step.1
    let ps1 := step.2
    let cs2 :=
      if NFloat.lt (fin 0) cl.tear_distance_factor then
        cs.filter (fun c =>
          ¬ NFloat.le (c.distance * cl.tear_distance_factor)
            (((getPF ps1 c.p1).pos - (getPF ps1 c.p2).pos).length))
      else cs
    ({ cl with constraints := cs2 }, ps1)

inductive WGroupF
  | rigid : RigidBodyF → WGroupF
  | cloth : ClothF → WGroupF

def WGroupF.solve (g : WGroupF) (ps : List ParticleF) (dt : ℝ) :
    WGroupF × List ParticleF :=
  match g with
  | .rigid rb => let r := rb.solve ps; (.rigid r.1, r.2)
  | .cloth cl => let r := cl.solve ps dt; (.cloth r.1, r.2)

def ConstraintF.applyPositional (c : ConstraintF) (ps : List ParticleF)
    (dt : ℝ) : ConstraintF × List ParticleF :=
  match c with
  | .spring _ => (c, ps)
  | .dist d => let r := d.update ps dt 1e-9; (.dist r.1, r.2)
  | .pin _ => (c, ps)

end NaNModel

noncomputable section NaNModelWorld

/-- `World` over the NaN model (float-valued fields lifted to `NFloat`;
structural fields unchanged). -/
structure WorldF where
  width : NFloat
  height : NFloat
  gravity : Vec2F
  friction : NFloat
  restitution : NFloat
  particles : List ParticleF
  constraints : List ConstraintF
  groups : List WGroupF
  collision_iterations : ℕ
  constraint_iterations : ℕ
  bounce : NFloat
  cell_size : NFloat
  verlet_rebuild_freq : ℕ
  verlet_skin : NFloat
  verlet_list : Option (List (List ℕ))
  verlet_frame_counter : ℕ
  verlet_last_n : ℕ

def computeForcesF (w : WorldF) : List Vec2F :=
  let base := w.particles.map (fun p =>
    if p.fixed = true then (⟨fin 0, fin 0⟩ : Vec2F)
    else w.gravity * p.mass - p.vel * w.friction)
  w.constraints.foldl (fun forces c =>
    match c with
    | .spring s =>
        if s.p1 < w.particles.length ∧ s.p2 < w.particles.length then
          let f_on_j := s.computeForce w.particles
            (getPF w.particles s.p1).pos (getPF w.particles s.p2).pos
            (getPF w.particles s.p1).vel (getPF w.particles s.p2).vel
          let forces1 := forces.set s.p2 (forces.getD s.p2 default + f_on_j)
          forces1.set s.p1 (forces1.getD s.p1 default - f_on_j)
        else forces
    | _ => forces) base

/-- Velocity step; note the Python `p.mass != 0` test, which is TRUE for a
NaN mass. -/
def integrateVelF (ps : List ParticleF) (forces : List Vec2F) (dt : ℝ) :
    List ParticleF :=
  idxMap (fun i p =>
    if p.fixed = false ∧ ¬ NFloat.feq p.mass (fin 0) then
      { p with vel := p.vel + forces.getD i default / p.mass * fin dt }
    else p) ps

def integratePosF (ps : List ParticleF) (dt : ℝ) : List ParticleF :=
  ps.map (fun p =>
    if p.fixed = false then { p with pos := p.pos + p.vel * fin dt } else p)

def constraintPassF (cs : List ConstraintF) (ps : List ParticleF) (dt : ℝ) :
    List ConstraintF × List ParticleF :=
  cs.foldl (fun (acc : List ConstraintF × List ParticleF) c =>
    let r := c.applyPositional acc.2 dt
    (acc.1 ++ [r.1], r.2)) ([], ps)

def groupPassF (gs : List WGroupF) (ps : List ParticleF) (dt : ℝ) :
    List WGroupF × List ParticleF :=
  gs.foldl (fun (acc : List WGroupF × List ParticleF) g =>
    let r := g.solve acc.2 dt
    (acc.1 ++ [r.1], r.2)) ([], ps)

def relaxStepF (dt : ℝ) (st : List ConstraintF × List WGroupF × List ParticleF) :
    List ConstraintF × List WGroupF × List ParticleF :=
  let a := constraintPassF st.1 st.2.2 dt
  let b := groupPassF st.2.1 a.2 dt
  (a.1, b.1, b.2)

/-- Boundary clamp under IEEE comparisons: every comparison with a NaN
coordinate is false, so a NaN position passes through unclamped. -/
def applyBoundaryConstraintsF (w : WorldF) (p : ParticleF) : ParticleF :=
  if p.fixed = true then p
  else
    let px := if NFloat.lt p.pos.x p.radius then p.radius
      else if NFloat.lt (w.width - p.radius) p.pos.x then w.width - p.radius
      else p.pos.x
    let py := if NFloat.lt p.pos.y p.radius then p.radius
      else if NFloat.lt (w.height - p.radius) p.pos.y then w.height - p.radius
      else p.pos.y
    { p with pos := ⟨px, py⟩ }

def applyBoundaryRestitutionF (w : WorldF) (p : ParticleF) : ParticleF :=
  if p.fixed = true then p
  else
    let vx := if (NFloat.le p.pos.x p.radius ∧ NFloat.lt p.vel.x (fin 0)) ∨
        (NFloat.le (w.width - p.radius) p.pos.x ∧ NFloat.lt (fin 0) p.vel.x)
      then p.vel.x * (-w.bounce) else p.vel.x
    let vy := if (NFloat.le p.pos.y p.radius ∧ NFloat.lt p.vel.y (fin 0)) ∨
        (NFloat.le (w.height - p.radius) p.pos.y ∧ NFloat.lt (fin 0) p.vel.y)
      then p.vel.y * (-w.bounce) else p.vel.y
    { p with vel := ⟨vx, vy⟩ }

def maxRadiusF : List ParticleF → NFloat
  | [] => fin 0
  | p :: rest => rest.foldl (fun m q => NFloat.fmax m q.radius) p.radius

/-- `int(x // cs)` on a NaN coordinate raises
`ValueError: cannot convert float NaN to integer`. -/
def floorKeyF : NFloat → Except String ℤ
  | some x => .ok ⌊x⌋
  | none => .error "ValueError: cannot convert float NaN to integer"

def keyForF (p : ParticleF) (cs : NFloat) : Except String (ℤ × ℤ) :=
  match floorKeyF (p.pos.x / cs), floorKeyF (p.pos.y / cs) with
  | .ok kx, .ok ky => .ok (kx, ky)
  | .error e, _ => .error e
  | _, .error e => .error e

/-- `World._rebuild_verlet_list` over the NaN model: building the spatial
hash converts every coordinate to an integer cell key, so any NaN position
aborts the whole update with `ValueError`. -/
def rebuildVerletF (w : WorldF) : Except String WorldF :=
  let n := w.particles.length
  if n = 0 then .ok { w with verlet_list := some [], verlet_last_n := 0 }
  else
    let cutoff := fin 2 * maxRadiusF w.particles + w.verlet_skin
    let cutoff_sq := cutoff * cutoff
    let cs := NFloat.fmax (fin 1e-6) w.cell_size
    match w.particles.enum.foldl
        (fun (sp : Except String (List ((ℤ × ℤ) × List ℕ))) e =>
          match sp with
          | .error msg => .error msg
          | .ok sp =>
            match keyForF e.2 cs with
            | .error msg => .error msg
            | .ok k => .ok (addToCell sp k e.1)) (.ok []) with
    | .error msg => .error msg
    | .ok spatial =>
      let neigh0 : List (List ℕ) := w.particles.map (fun _ => [])
      let neigh := spatial.foldl (fun nb cell =>
        cellOffsets.foldl (fun nb off =>
          match cellGet spatial (cell.1.1 + off.1, cell.1.2 + off.2) with
          | none => nb
          | some other =>
              cell.2.foldl (fun nb i =>
                other.foldl (fun nb j =>
                  if i ≥ j then nb
                  else
                    let p1 := getPF w.particles i
                    let p2 := getPF w.particles j
                    let dxp := p2.pos.x - p1.pos.x
                    let dyp := p2.pos.y - p1.pos.y
                    if NFloat.le (dxp * dxp + dyp * dyp) cutoff_sq then
                      appendNeighbor (appendNeighbor nb i j) j i
                    else nb) nb) nb) nb) neigh0
      .ok { w with verlet_list := some neigh, verlet_last_n := n,
                   verlet_frame_counter := 0 }

def detectF (p1 p2 : ParticleF) : Prop :=
  NFloat.lt ((p1.pos.x - p2.pos.x) * (p1.pos.x - p2.pos.x) +
    (p1.pos.y - p2.pos.y) * (p1.pos.y - p2.pos.y))
    ((p1.radius + p2.radius) * (p1.radius + p2.radius))

instance (p1 p2 : ParticleF) : Decidable (detectF p1 p2) := by
  unfold detectF; infer_instance

/-- `resolve_particle_collision` over the NaN model. -/
def resolveF (p1 p2 : ParticleF) (restitution : NFloat)
    (percent slop max_correction : ℝ) : ParticleF × ParticleF :=
  if p1.fixed = true ∧ p2.fixed = true then (p1, p2)
  else
    let delta := p2.pos - p1.pos
    let dist0 := delta.length
    let normal : Vec2F :=
      if NFloat.le dist0 (fin 1e-9) then ⟨fin 1, fin 0⟩
      else ⟨delta.x / dist0, delta.y / dist0⟩
    let dist := if NFloat.le dist0 (fin 1e-9) then fin 1e-9 else dist0
    let inv_mass1 : NFloat :=
      if p1.fixed = true then fin 0
      else if ¬ NFloat.feq p1.mass (fin 0) then fin 1 / p1.mass else fin 0
    let inv_mass2 : NFloat :=
      if p2.fixed = true then fin 0
      else if ¬ NFloat.feq p2.mass (fin 0) then fin 1 / p2.mass else fin 0
    let inv_mass_sum := inv_mass1 + inv_mass2
    if NFloat.feq inv_mass_sum (fin 0) then (p1, p2)
    else
      let penetration := (p1.radius + p2.radius) - dist
      let _ := restitution
      if NFloat.lt (fin slop) penetration then
        let correction_mag :=
          NFloat.fmin ((penetration - fin slop) * fin percent)
            (fin max_correction)
        let q1 :=
          if ¬ p1.fixed = true then
            { p1 with pos :=
                ⟨p1.pos.x - normal.x * correction_mag * (inv_mass1 / inv_mass_sum),
                 p1.pos.y - normal.y * correction_mag * (inv_mass1 / inv_mass_sum)⟩ }
          else p1
        let q2 :=
          if ¬ p2.fixed = true then
            { p2 with pos :=
                ⟨p2.pos.x + normal.x * correction_mag * (inv_mass2 / inv_mass_sum),
                 p2.pos.y + normal.y * correction_mag * (inv_mass2 / inv_mass_sum)⟩ }
          else p2
        (q1, q2)
      else (p1, p2)

def resolvePairStepF (restitution : NFloat) (ps : List ParticleF)
    (pr : ℕ × ℕ) : List ParticleF :=
  let p1 := getPF ps pr.1
  let p2 := getPF ps pr.2
  let dxp := p2.pos.x - p1.pos.x
  let dyp := p2.pos.y - p1.pos.y
  let rsum := p1.radius + p2.radius
  if NFloat.lt (rsum * rsum) (dxp * dxp + dyp * dyp) then ps
  else if detectF p1 p2 then
    let r := resolveF p1 p2 restitution 0.2 0.01 0.5
    (ps.set pr.1 r.1).set pr.2 r.2
  else ps

def bruteStepF (restitution : NFloat) (ps : List ParticleF) (pr : ℕ × ℕ) :
    List ParticleF :=
  let p1 := getPF ps pr.1
  let p2 := getPF ps pr.2
  if detectF p1 p2 then
    let r := resolveF p1 p2 restitution 0.2 0.01 0.5
    (ps.set pr.1 r.1).set pr.2 r.2
  else ps

def fallbackPairsF (ps : List ParticleF) (cs : NFloat) :
    Except String (List (ℕ × ℕ)) :=
  match ps.enum.foldl
      (fun (sp : Except String (List ((ℤ × ℤ) × List ℕ))) e =>
        match sp with
        | .error msg => .error msg
        | .ok sp =>
          match keyForF e.2 cs with
          | .error msg => .error msg
          | .ok k => .ok (addToCell sp k e.1)) (.ok []) with
  | .error msg => .error msg
  | .ok spatial =>
    .ok (spatial.foldl (fun (acc : List (ℕ × ℕ)) cell =>
      cellOffsets.foldl (fun acc off =>
        match cellGet spatial (cell.1.1 + off.1, cell.1.2 + off.2) with
        | none => acc
        | some other =>
            cell.2.foldl (fun acc i =>
              other.foldl (fun acc j =>
                if i ≥ j then acc
                else if (min i j, max i j) ∈ acc then acc
                else acc ++ [(i, j)]) acc) acc) acc) [])

def collisionFallbackF (w : WorldF) : Except String WorldF :=
  let cs := w.cell_size
  if NFloat.le cs (fin 0) then
    let ps' := (allPairs w.particles.length).foldl
      (bruteStepF w.restitution) w.particles
    .ok { w with particles := ps' }
  else
    match fallbackPairsF w.particles cs with
    | .error msg => .error msg
    | .ok pairs =>
        .ok { w with
            particles := pairs.foldl (resolvePairStepF w.restitution)
              w.particles }

def collisionResolveBodyF (n : ℕ) (w1 : WorldF) : Except String WorldF :=
  match w1.verlet_list with
  | some vl =>
      if vl.length = n then
        let pairs := verletPairs vl
        if pairs = [] then
          .ok { w1 with verlet_frame_counter := w1.verlet_frame_counter + 1 }
        else
          .ok { w1 with
              particles := pairs.foldl (resolvePairStepF w1.restitution)
                w1.particles,
              verlet_frame_counter := w1.verlet_frame_counter + 1 }
      else collisionFallbackF w1
  | none => collisionFallbackF w1

def collisionIterationF (w : WorldF) : Except String WorldF :=
  let n := w.particles.length
  let rebuild := w.verlet_list = none ∨ w.verlet_last_n ≠ n ∨
    w.verlet_frame_counter % max 1 w.verlet_rebuild_freq = 0
  if rebuild then
    match rebuildVerletF w with
    | .error msg => .error msg
    | .ok w1 => collisionResolveBodyF n w1
  else
    collisionResolveBodyF n
      { w with verlet_frame_counter := w.verlet_frame_counter + 1 }

def iterExcept (f : WorldF → Except String WorldF) :
    ℕ → WorldF → Except String WorldF
  | 0, w => .ok w
  | n + 1, w =>
      match f w with
      | .error msg => .error msg
      | .ok w' => iterExcept f n w'

def handleCollisionsF (w : WorldF) : Except String WorldF :=
  iterExcept collisionIterationF (max 1 w.collision_iterations) w

def velocityUpdateF (w : WorldF) (pos_before : List Vec2F) (dt : ℝ) : WorldF :=
  { w with particles := idxMap (fun i p =>
      if p.fixed = false ∧ dt > 1e-9 then
        { p with vel := (p.pos - pos_before.getD i default) / fin dt }
      else p) w.particles }

def restitutionPassF (w : WorldF) : WorldF :=
  { w with particles := w.particles.map (applyBoundaryRestitutionF w) }

/-- `World.update(dt)` over the NaN model: the time step itself is taken
finite (all in-repo callers pass a fixed frame time).  The collision phase
can raise (`ValueError` on NaN coordinates during a Verlet rebuild), which
propagates out of `update` uncaught. -/
def WorldF.update (w : WorldF) (dt : ℝ) : Except String WorldF :=
  if w.particles.length = 0 then .ok w
  else
    let pos_before := w.particles.map (fun p => p.pos.copy)
    let forces := computeForcesF w
    let ps1 := integrateVelF w.particles forces dt
    let ps2 := integratePosF ps1 dt
    let st := (relaxStepF dt)^[max 1 w.constraint_iterations]
      (w.constraints, w.groups, ps2)
    let w3 := { w with particles := st.2.2.map (applyBoundaryConstraintsF w),
                       constraints := st.1, groups := st.2.1 }
    match handleCollisionsF w3 with
    | .error msg => .error msg
    | .ok w4 =>
        let w5 := { w4 with
          particles := w4.particles.map (applyBoundaryConstraintsF w4) }
        .ok (restitutionPassF (velocityUpdateF w5 pos_before dt))

end NaNModelWorld

section NaNLemmas

@[simp] theorem fin_add_fin (a b : ℝ) : fin a + fin b = fin (a + b) := rfl
@[simp] theorem nan_add (b : NFloat) : nan + b = nan := rfl
@[simp] theorem add_nan (a : NFloat) : a + nan = nan := by cases a <;> rfl
@[simp] theorem fin_sub_fin (a b : ℝ) : fin a - fin b = fin (a - b) := rfl
@[simp] theorem nan_sub (b : NFloat) : nan - b = nan := rfl
@[simp] theorem sub_nan (a : NFloat) : a - nan = nan := by cases a <;> rfl
@[simp] theorem fin_mul_fin (a b : ℝ) : fin a * fin b = fin (a * b) := rfl
@[simp] theorem nan_mul (b : NFloat) : nan * b = nan := rfl
@[simp] theorem mul_nan (a : NFloat) : a * nan = nan := by cases a <;> rfl
@[simp] theorem fin_div_fin (a b : ℝ) :
    fin a / fin b = if b = 0 then nan else fin (a / b) := rfl
@[simp] theorem nan_div (b : NFloat) : nan / b = nan := rfl
@[simp] theorem div_nan (a : NFloat) : a / nan = nan := by cases a <;> rfl
@[simp] theorem neg_fin (a : ℝ) : -(fin a) = fin (-a) := rfl
@[simp] theorem neg_nan : -nan = nan := rfl
@[simp] theorem fin_lt_fin (a b : ℝ) : NFloat.lt (fin a) (fin b) ↔ a < b :=
  Iff.rfl
@[simp] theorem nan_lt (b : NFloat) : NFloat.lt nan b ↔ False := Iff.rfl
@[simp] theorem lt_nan (a : NFloat) : NFloat.lt a nan ↔ False := by
  cases a <;> exact Iff.rfl
@[simp] theorem fin_le_fin (a b : ℝ) : NFloat.le (fin a) (fin b) ↔ a ≤ b :=
  Iff.rfl
@[simp] theorem nan_le (b : NFloat) : NFloat.le nan b ↔ False := Iff.rfl
@[simp] theorem le_nan (a : NFloat) : NFloat.le a nan ↔ False := by
  cases a <;> exact Iff.rfl
@[simp] theorem fin_feq_fin (a b : ℝ) : NFloat.feq (fin a) (fin b) ↔ a = b :=
  Iff.rfl
@[simp] theorem nan_feq (b : NFloat) : NFloat.feq nan b ↔ False := Iff.rfl
@[simp] theorem feq_nan (a : NFloat) : NFloat.feq a nan ↔ False := by
  cases a <;> exact Iff.rfl
@[simp] theorem isfinite_fin (a : ℝ) : NFloat.isfinite (fin a) ↔ True :=
  Iff.rfl
@[simp] theorem isfinite_nan : NFloat.isfinite nan ↔ False := Iff.rfl
@[simp] theorem fsqrt_fin (a : ℝ) : (fin a).fsqrt = fin (Real.sqrt a) := rfl
@[simp] theorem fsqrt_nan : NFloat.fsqrt nan = nan := rfl
theorem floorKeyF_nan :
    floorKeyF nan = Except.error "ValueError: cannot convert float NaN to integer" := rfl

@[simp] theorem vecF_add_def (a b : Vec2F) :
    a + b = ⟨a.x + b.x, a.y + b.y⟩ := rfl
@[simp] theorem vecF_sub_def (a b : Vec2F) :
    a - b = ⟨a.x - b.x, a.y - b.y⟩ := rfl
@[simp] theorem vecF_smul_def (a : Vec2F) (s : NFloat) :
    a * s = ⟨a.x * s, a.y * s⟩ := rfl
@[simp] theorem vecF_sdiv_def (a : Vec2F) (s : NFloat) :
    a / s = ⟨a.x / s, a.y / s⟩ := rfl
@[simp] theorem vecF_copy_def (a : Vec2F) : a.copy = ⟨a.x, a.y⟩ := rfl

end NaNLemmas

section NaNTheorems

/-- Failing input for the non-finite policy: a single particle with finite
position `(50,50)` and NaN x-velocity (prebuilt Verlet list, inside its
rebuild window). -/
def wNaN : WorldF :=
  { width := fin 100, height := fin 100, gravity := ⟨fin 0, fin 0⟩,
    friction := fin 0, restitution := fin 0.5,
    particles := [⟨⟨fin 50, fin 50⟩, ⟨nan, fin 0⟩, fin 6, fin 1, false⟩],
    constraints := [], groups := [],
    collision_iterations := 1, constraint_iterations := 2, bounce := fin 0.5,
    cell_size := fin 10, verlet_rebuild_freq := 5, verlet_skin := fin 4,
    verlet_list := some [[]], verlet_frame_counter := 1, verlet_last_n := 1 }

/-- The same failing input but with no Verlet list yet, forcing a rebuild
during the collision phase. -/
def wNaN2 : WorldF :=
  { wNaN with verlet_list := none, verlet_frame_counter := 0,
              verlet_last_n := 0 }

theorem collisionIterationF_single (w : WorldF)
    (h1 : w.verlet_list = some [[]])
    (h2 : w.particles.length = 1)
    (h3 : w.verlet_last_n = 1)
    (h4 : ¬ w.verlet_frame_counter % max 1 w.verlet_rebuild_freq = 0) :
    collisionIterationF w =
      Except.ok { w with verlet_frame_counter := w.verlet_frame_counter + 2 } := by
  unfold collisionIterationF
  dsimp only
  rw [if_neg (by simp [h1, h2, h3, h4])]
  unfold collisionResolveBodyF
  dsimp only
  simp only [h1, h2, verletPairs, List.enum, List.length_cons,
    List.length_nil]
  norm_num

theorem handleCollisionsF_single (w : WorldF)
    (hci : w.collision_iterations = 1)
    (h1 : w.verlet_list = some [[]])
    (h2 : w.particles.length = 1)
    (h3 : w.verlet_last_n = 1)
    (h4 : ¬ w.verlet_frame_counter % max 1 w.verlet_rebuild_freq = 0) :
    handleCollisionsF w =
      Except.ok { w with verlet_frame_counter := w.verlet_frame_counter + 2 } := by
  unfold handleCollisionsF
  rw [show max 1 w.collision_iterations = 1 by simp [hci]]
  unfold iterExcept
  rw [collisionIterationF_single w h1 h2 h3 h4]
  rfl

/-- Concrete evaluation: one full `update` step on the NaN-velocity world.
The NaN x-velocity integrates into a NaN x-position, passes the clamps
(IEEE comparisons with NaN are false), and the PBD velocity update divides
the NaN displacement through, so the stored state ends non-finite. -/
theorem wNaN_update_eval :
    wNaN.update (1 / 60) = Except.ok
      { wNaN with
          particles := [⟨⟨nan, fin 50⟩, ⟨nan, fin 0⟩, fin 6, fin 1, false⟩],
          verlet_frame_counter := 3 } := by
  have hforces : computeForcesF wNaN = [⟨nan, fin 0⟩] := by
    norm_num [computeForcesF, wNaN]
  have hiv : integrateVelF
      [(⟨⟨fin 50, fin 50⟩, ⟨nan, fin 0⟩, fin 6, fin 1, false⟩ : ParticleF)]
      [(⟨nan, fin 0⟩ : Vec2F)] (1 / 60) =
      [⟨⟨fin 50, fin 50⟩, ⟨nan, fin 0⟩, fin 6, fin 1, false⟩] := by
    norm_num [integrateVelF, idxMap, idxMapAux]
  have hip : integratePosF
      [(⟨⟨fin 50, fin 50⟩, ⟨nan, fin 0⟩, fin 6, fin 1, false⟩ : ParticleF)]
      (1 / 60) =
      [⟨⟨nan, fin 50⟩, ⟨nan, fin 0⟩, fin 6, fin 1, false⟩] := by
    norm_num [integratePosF]
  have hrelax : ∀ ps : List ParticleF,
      (relaxStepF (1 / 60))^[max 1 2] ([], [], ps) = ([], [], ps) := by
    intro ps
    apply Function.iterate_fixed
    norm_num [relaxStepF, constraintPassF, groupPassF]
  unfold WorldF.update
  rw [if_neg (by norm_num [wNaN])]
  dsimp only
  rw [hforces, show wNaN.particles =
    [(⟨⟨fin 50, fin 50⟩, ⟨nan, fin 0⟩, fin 6, fin 1, false⟩ : ParticleF)]
    from rfl, hiv, hip,
    show wNaN.constraints = ([] : List ConstraintF) from rfl,
    show wNaN.groups = ([] : List WGroupF) from rfl,
    show wNaN.constraint_iterations = 2 from rfl, hrelax]
  norm_num [wNaN, applyBoundaryConstraintsF, getPF,
    handleCollisionsF_single, velocityUpdateF, restitutionPassF,
    applyBoundaryRestitutionF, idxMap, idxMapAux]

theorem iterExcept_one (f : WorldF → Except String WorldF) (w : WorldF) :
    iterExcept f 1 w =
      match f w with
      | .error msg => .error msg
      | .ok w' => iterExcept f 0 w' := rfl

/-- Evaluation helper: a forced Verlet rebuild on a single-particle world
whose x-position is NaN aborts with `ValueError`. -/
theorem handleCollisionsF_nan_single (w : WorldF) (p : ParticleF)
    (hci : w.collision_iterations = 1)
    (h1 : w.verlet_list = none)
    (hp : w.particles = [p])
    (hx : p.pos.x = nan) :
    handleCollisionsF w =
      Except.error "ValueError: cannot convert float NaN to integer" := by
  have hrb : rebuildVerletF w =
      Except.error "ValueError: cannot convert float NaN to integer" := by
    unfold rebuildVerletF
    rw [hp]
    norm_num [List.enum, List.enumFrom, keyForF, hx, floorKeyF_nan]
  have hit : collisionIterationF w =
      Except.error "ValueError: cannot convert float NaN to integer" := by
    unfold collisionIterationF
    dsimp only
    rw [if_pos (by simp [h1]), hrb]
  unfold handleCollisionsF
  rw [show max 1 w.collision_iterations = 1 by simp [hci], iterExcept_one,
    hit]

/-- Concrete evaluation: the same input with the Verlet list absent, so the
collision phase rebuilds it and `int(pos // cs)` hits the NaN coordinate:
the whole step aborts with `ValueError`. -/
theorem wNaN2_update_error :
    wNaN2.update (1 / 60) =
      Except.error "ValueError: cannot convert float NaN to integer" := by
  have hiv : integrateVelF
      [(⟨⟨fin 50, fin 50⟩, ⟨nan, fin 0⟩, fin 6, fin 1, false⟩ : ParticleF)]
      [(⟨nan, fin 0⟩ : Vec2F)] (1 / 60) =
      [⟨⟨fin 50, fin 50⟩, ⟨nan, fin 0⟩, fin 6, fin 1, false⟩] := by
    norm_num [integrateVelF, idxMap, idxMapAux]
  have hip : integratePosF
      [(⟨⟨fin 50, fin 50⟩, ⟨nan, fin 0⟩, fin 6, fin 1, false⟩ : ParticleF)]
      (1 / 60) =
      [⟨⟨nan, fin 50⟩, ⟨nan, fin 0⟩, fin 6, fin 1, false⟩] := by
    norm_num [integratePosF]
  have hrelax : ∀ ps : List ParticleF,
      (relaxStepF (1 / 60))^[max 1 2] ([], [], ps) = ([], [], ps) := by
    intro ps
    apply Function.iterate_fixed
    norm_num [relaxStepF, constraintPassF, groupPassF]
  have hforces2 : computeForcesF wNaN2 = [⟨nan, fin 0⟩] := by
    norm_num [computeForcesF, wNaN2, wNaN]
  unfold WorldF.update
  rw [if_neg (by norm_num [wNaN2, wNaN])]
  dsimp only
  rw [hforces2, show wNaN2.particles =
    [(⟨⟨fin 50, fin 50⟩, ⟨nan, fin 0⟩, fin 6, fin 1, false⟩ : ParticleF)]
    from rfl, hiv, hip,
    show wNaN2.constraints = ([] : List ConstraintF) from rfl,
    show wNaN2.groups = ([] : List WGroupF) from rfl,
    show wNaN2.constraint_iterations = 2 from rfl, hrelax]
  rw [show List.map (applyBoundaryConstraintsF wNaN2)
    [(⟨⟨nan, fin 50⟩, ⟨nan, fin 0⟩, fin 6, fin 1, false⟩ : ParticleF)] =
    [(⟨⟨nan, fin 50⟩, ⟨nan, fin 0⟩, fin 6, fin 1, false⟩ : ParticleF)]
    from by norm_num [applyBoundaryConstraintsF, wNaN2, wNaN]]
  rw [handleCollisionsF_nan_single _
    (⟨⟨nan, fin 50⟩, ⟨nan, fin 0⟩, fin 6, fin 1, false⟩ : ParticleF)
    rfl rfl rfl rfl]

/-- C4 (amended): `World.update` applies non-finite results instead of
rejecting them.  First conjunct: with a NaN x-velocity the step completes
and stores a NaN x-position and NaN x-velocity.  Second conjunct: if the
collision phase must rebuild the Verlet list, the NaN coordinate makes
`int(pos // cs)` raise `ValueError`, aborting the whole step uncaught —
fail-fast for every particle, not fail-safe. -/
theorem update_applies_nonfinite_state :
    wNaN.update (1 / 60) = Except.ok
      { wNaN with
          particles := [⟨⟨nan, fin 50⟩, ⟨nan, fin 0⟩, fin 6, fin 1, false⟩],
          verlet_frame_counter := 3 } ∧
    wNaN2.update (1 / 60) =
      Except.error "ValueError: cannot convert float NaN to integer" :=
  ⟨wNaN_update_eval, wNaN2_update_error⟩

/-- Counterexample to C4 as stated: the newly computed position of the
particle is non-finite, yet the step does not retain the previous valid
position `(50,50)` — the stored x-position after `update` is NaN, not
50. -/
theorem update_nonfinite_not_rejected :
    ∃ w' : WorldF, wNaN.update (1 / 60) = Except.ok w' ∧
      (getPF w'.particles 0).pos.x ≠ fin 50 ∧
      (getPF w'.particles 0).pos.x = nan :=
  ⟨_, wNaN_update_eval, by simp [getPF, fin, nan], rfl⟩

end NaNTheorems
